import Mathlib

/-!
Verification of the car data-access service (`carServiceSupabase`) of the
exo-drive repository.

The service file is embedded shallowly: the database and the storage bucket
are modelled as explicit state (`DBState`), every store call either succeeds
or fails according to an explicit per-call schedule (store failures arrive as
result values, exactly as the store client delivers them), and each public
operation of the service becomes a pure Lean function from the input, the
schedule and the current state to an `Except` result, the next state and the
list of store calls that were made.

Identifiers and timestamps (uuid strings / ISO dates in the source) are
modelled as naturals; only their equality and relative order are used.
-/

namespace ExoDrive

/-! ## Slug generator (`generateSlug`) -/

/-- The JavaScript regex class `\s`, by code point. -/
def isJsSpace (c : Char) : Bool :=
  decide (c.toNat = 9 ∨ c.toNat = 10 ∨ c.toNat = 11 ∨ c.toNat = 12 ∨ c.toNat = 13 ∨
    c.toNat = 32 ∨ c.toNat = 160 ∨ c.toNat = 5760 ∨
    (8192 ≤ c.toNat ∧ c.toNat ≤ 8202) ∨ c.toNat = 8232 ∨ c.toNat = 8233 ∨
    c.toNat = 8239 ∨ c.toNat = 8287 ∨ c.toNat = 12288 ∨ c.toNat = 65279)

/-- The JavaScript regex class `\w`: ASCII letters, digits, underscore. -/
def isWordChar (c : Char) : Bool :=
  decide ((97 ≤ c.toNat ∧ c.toNat ≤ 122) ∨ (65 ≤ c.toNat ∧ c.toNat ≤ 90) ∨
    (48 ≤ c.toNat ∧ c.toNat ≤ 57) ∨ c.toNat = 95)

/-- `replace(/\s+/g, "-")`: each maximal whitespace run becomes one hyphen.
`prev` records whether the previous character was whitespace. -/
def replaceSpaceRuns (prev : Bool) : List Char → List Char
  | [] => []
  | c :: cs =>
    if isJsSpace c then
      (if prev then [] else ['-']) ++ replaceSpaceRuns true cs
    else
      c :: replaceSpaceRuns false cs

/-- The global replace of the pattern `--+` with `-`: each maximal hyphen run
collapses to one hyphen (runs of length one are left alone, which gives the
same result). -/
def collapseHyphens (prev : Bool) : List Char → List Char
  | [] => []
  | c :: cs =>
    if c = '-' then
      (if prev then [] else ['-']) ++ collapseHyphens true cs
    else
      c :: collapseHyphens false cs

/-- The replace of the anchored pattern `-+$` with the empty string: drop the
trailing run of hyphens. -/
def trimTrailingHyphens : List Char → List Char
  | [] => []
  | c :: cs =>
    match trimTrailingHyphens cs with
    | [] => if c = '-' then [] else [c]
    | r => c :: r

/-- `generateSlug` from the service file: lowercase, whitespace runs to
hyphens, strip every character that is not a word character or hyphen,
collapse hyphen runs, trim hyphens at both ends. `toLowerCase` is modelled
per character by the basic-latin case mapping. -/
def generateSlug (s : String) : String :=
  ⟨trimTrailingHyphens
    (((collapseHyphens false
      ((replaceSpaceRuns false (s.data.map Char.toLower)).filter
        (fun c => isWordChar c || c = '-'))).dropWhile (fun c => c = '-')))⟩

/-- A character the spec allows in a slug: a non-uppercase word character
(lowercase letter, digit, underscore) or a hyphen. -/
def isSlugChar (c : Char) : Bool :=
  decide ((97 ≤ c.toNat ∧ c.toNat ≤ 122) ∨ (48 ≤ c.toNat ∧ c.toNat ≤ 57) ∨
    c.toNat = 95 ∨ c.toNat = 45)
/-- The relation "not two hyphens in a row". -/
def NotBothHyphens (a b : Char) : Prop := ¬(a = '-' ∧ b = '-')

/-! ## Data model

Rows of the five tables and the storage bucket. The store client resolves
every call with a `{data, error}` result value (it does not reject on store
errors); a call that fails leaves the table untouched. Nullable columns are
`Option`; `category` and `path` are string columns whose absent value the
source only ever tests through JavaScript falsiness, so the empty string
stands for the absent value. -/

structure CarRow where
  id : Nat
  slug : String
  name : String
  category : String
  description : Option String
  short_description : Option String
  available : Option Bool
  featured : Option Bool
  hidden : Option Bool
  created_at : Nat
  created_by : Option Nat
deriving DecidableEq

structure PricingRow where
  id : Nat
  car_id : Nat
  base_price : Int
deriving DecidableEq

structure ImageRow where
  id : Nat
  car_id : Nat
  url : String
  path : String
  is_primary : Bool
  sort_order : Option Int
deriving DecidableEq

structure FeatureRow where
  id : Nat
  car_id : Nat
  name : String
deriving DecidableEq

structure SpecRow where
  id : Nat
  car_id : Nat
  name : String
deriving DecidableEq

/-- The database tables, the storage bucket, the id generator and the clock. -/
structure DBState where
  cars : List CarRow
  car_pricing : List PricingRow
  car_images : List ImageRow
  car_features : List FeatureRow
  car_specifications : List SpecRow
  storage : List String
  nextId : Nat
  now : Nat
deriving DecidableEq

structure PricingInsertData where
  base_price : Int
deriving DecidableEq

structure ImageInsertData where
  url : String
  path : String
  is_primary : Bool
  sort_order : Option Int
deriving DecidableEq

structure FeatureInsertData where
  name : String
deriving DecidableEq

structure SpecificationInsertData where
  name : String
deriving DecidableEq

/-- `AppCarUpsert`, the composite create payload. For `description`,
`short_description` and the three flags the create flow reads the field only
through `??`, under which a missing field and an explicit null behave
identically, so both are `none`. -/
structure AppCarUpsert where
  name : String
  category : String
  description : Option String
  short_description : Option String
  available : Option Bool
  featured : Option Bool
  hidden : Option Bool
  pricing : Option PricingInsertData
  images : List ImageInsertData
  features : List FeatureInsertData
  specifications : List SpecificationInsertData
deriving DecidableEq

/-- `Partial<AppCarUpsert>`, the update payload. The update flow distinguishes
a missing field (outer `none`) from an explicit null (`some none`). -/
structure AppCarUpdate where
  name : Option String
  category : Option String
  description : Option (Option String)
  short_description : Option (Option String)
  available : Option (Option Bool)
  featured : Option (Option Bool)
  hidden : Option (Option Bool)
  pricing : Option PricingInsertData
  images : Option (List ImageInsertData)
  features : Option (List FeatureInsertData)
  specifications : Option (List SpecificationInsertData)
deriving DecidableEq

/-- The assembled `AppCar` view: the base row spread together with its related
collections, boolean flags resolved. -/
structure AppCar where
  id : Nat
  slug : String
  name : String
  category : String
  description : Option String
  short_description : Option String
  available : Bool
  featured : Bool
  hidden : Bool
  created_at : Nat
  created_by : Option Nat
  pricing : Option PricingRow
  images : List ImageRow
  features : List FeatureRow
  specifications : List SpecRow
deriving DecidableEq

/-- Shape of a joined pricing value: the store may deliver the child rows as
an array or as a bare object. -/
inductive PricingJoin where
  | arr : List PricingRow → PricingJoin
  | obj : PricingRow → PricingJoin
  | missing : PricingJoin
deriving DecidableEq

/-- `Array.isArray(p) ? p[0] || null : p || null`. -/
def firstOrNull : PricingJoin → Option PricingRow
  | .arr l => l.head?
  | .obj p => some p
  | .missing => none

/-- `p?.[0]?.base_price ?? p?.base_price` (an array has no `base_price` key
and indexing an object with 0 gives nothing, so exactly one side can hit). -/
def priceFromJoin : PricingJoin → Option Int
  | .arr l => l.head?.map (fun p => p.base_price)
  | .obj p => some p.base_price
  | .missing => none

/-- The image sort comparator `(a, b) => (a.sort_order ?? 0) - (b.sort_order ?? 0)`
as a total boolean `≤`. -/
def imageLe (a b : ImageRow) : Bool :=
  decide (a.sort_order.getD 0 ≤ b.sort_order.getD 0)

/-- `images.sort(comparator)`: a stable sort by the comparator, as the
JavaScript runtime performs (modelled by insertion sort, which is stable). -/
def sortImages (l : List ImageRow) : List ImageRow :=
  l.insertionSort (fun a b => imageLe a b = true)

/-- One store call, as recorded in an operation's trace. -/
inductive StoreCall where
  | carsInsert | carsUpdate | carsDelete | carsSelect
  | pricingInsert | pricingUpsert | pricingDelete
  | imagesInsert | imagesSelect | imagesDelete | imagesUpsert
  | featuresInsert | featuresDelete
  | specificationsInsert | specificationsDelete
  | storageRemove (paths : List String)
deriving DecidableEq

def carPricingFor (db : DBState) (carId : Nat) : List PricingRow :=
  db.car_pricing.filter (fun p => p.car_id == carId)

def carImagesFor (db : DBState) (carId : Nat) : List ImageRow :=
  db.car_images.filter (fun i => i.car_id == carId)

def carFeaturesFor (db : DBState) (carId : Nat) : List FeatureRow :=
  db.car_features.filter (fun f => f.car_id == carId)

def carSpecsFor (db : DBState) (carId : Nat) : List SpecRow :=
  db.car_specifications.filter (fun s => s.car_id == carId)

/-! ## Aggregate assembler (`getCarById` / `getCarBySlug`) -/

/-- Assembly of an `AppCar` from a fetched base row and its joined
collections, shared verbatim by `getCarById` and `getCarBySlug`. Rows
delivered by the store carry every selected column, so the source's
`images.length > 0 && sort_order in images[0]` guard holds exactly when the
image list is nonempty. -/
def assembleAppCar (car : CarRow) (pricing : PricingJoin) (images : List ImageRow)
    (features : List FeatureRow) (specs : List SpecRow) : AppCar :=
  { id := car.id, slug := car.slug, name := car.name, category := car.category
    description := car.description, short_description := car.short_description
    available := car.available.getD true, featured := car.featured.getD false
    hidden := car.hidden.getD false
    created_at := car.created_at, created_by := car.created_by
    pricing := firstOrNull pricing
    images := if images.length > 0 then sortImages images else images
    features := features, specifications := specs }

/-- `getCarById`: the fan-out read by id. `fail` is the scheduled outcome of
the select; its error is rethrown through the translator `tr`
(`handleSupabaseError`, modelled from the spec as an abstract
message-to-message function since `lib/supabase/client` is not in the tree). -/
def getCarById (tr : String → String) (fail : Option String) (db : DBState) (id : Nat) :
    Except String (Option AppCar) :=
  match fail with
  | some m => .error (tr m)
  | none =>
    match db.cars.find? (fun c => c.id == id) with
    | none => .ok none
    | some car =>
      .ok (some (assembleAppCar car (.arr (carPricingFor db car.id))
        (carImagesFor db car.id) (carFeaturesFor db car.id) (carSpecsFor db car.id)))

/-- `getCarBySlug`: identical assembly, keyed on the slug column. -/
def getCarBySlug (tr : String → String) (fail : Option String) (db : DBState) (slug : String) :
    Except String (Option AppCar) :=
  match fail with
  | some m => .error (tr m)
  | none =>
    match db.cars.find? (fun c => c.slug == slug) with
    | none => .ok none
    | some car =>
      .ok (some (assembleAppCar car (.arr (carPricingFor db car.id))
        (carImagesFor db car.id) (carFeaturesFor db car.id) (carSpecsFor db car.id)))

/-! ## Aggregate writer — create (`createCar`) -/

/-- Scheduled outcome of each store call `createCar` can make: `none` means
the call succeeds, `some m` means the store reports the error message `m`. -/
structure CreateSched where
  carInsert : Option String
  pricingInsert : Option String
  imagesInsert : Option String
  featuresInsert : Option String
  specificationsInsert : Option String
  cleanupDelete : Option String
deriving DecidableEq

/-- The base `cars` insert payload built by `createCar` (boolean defaults
resolved, `description` coalesced to the empty string, slug derived). -/
def mkBaseCarRow (carData : AppCarUpsert) (userId : Option Nat) (db : DBState) : CarRow :=
  { id := db.nextId
    slug := generateSlug carData.name
    name := carData.name
    category := carData.category
    description := some (carData.description.getD "")
    short_description := carData.short_description
    available := some (carData.available.getD true)
    featured := some (carData.featured.getD false)
    hidden := some (carData.hidden.getD false)
    created_at := db.now
    created_by := userId }

def insertImageRows (carId : Nat) (db : DBState) : List ImageInsertData → DBState × List ImageRow
  | [] => (db, [])
  | i :: rest =>
    let row : ImageRow := { id := db.nextId, car_id := carId, url := i.url, path := i.path,
                            is_primary := i.is_primary, sort_order := i.sort_order }
    let db1 := { db with car_images := db.car_images ++ [row], nextId := db.nextId + 1 }
    let (db2, rows) := insertImageRows carId db1 rest
    (db2, row :: rows)

def insertFeatureRows (carId : Nat) (db : DBState) : List FeatureInsertData → DBState × List FeatureRow
  | [] => (db, [])
  | f :: rest =>
    let row : FeatureRow := { id := db.nextId, car_id := carId, name := f.name }
    let db1 := { db with car_features := db.car_features ++ [row], nextId := db.nextId + 1 }
    let (db2, rows) := insertFeatureRows carId db1 rest
    (db2, row :: rows)

def insertSpecRows (carId : Nat) (db : DBState) : List SpecificationInsertData → DBState × List SpecRow
  | [] => (db, [])
  | s :: rest =>
    let row : SpecRow := { id := db.nextId, car_id := carId, name := s.name }
    let db1 := { db with car_specifications := db.car_specifications ++ [row], nextId := db.nextId + 1 }
    let (db2, rows) := insertSpecRows carId db1 rest
    (db2, row :: rows)

/-- Step 5 of `createCar` (specifications insert). -/
def createSpecsStage (sched : CreateSched) (carId : Nat) (db : DBState) (c : AppCarUpsert)
    (pr : Option PricingRow) (imgs : List ImageRow) (fts : List FeatureRow) :
    DBState × Except String (Option PricingRow × List ImageRow × List FeatureRow × List SpecRow) ×
      List StoreCall :=
  match c.specifications with
  | [] => (db, .ok (pr, imgs, fts, []), [])
  | _ :: _ =>
    match sched.specificationsInsert with
    | some m => (db, .error ("Specifications insert failed: " ++ m), [.specificationsInsert])
    | none =>
      let (db1, rows) := insertSpecRows carId db c.specifications
      (db1, .ok (pr, imgs, fts, rows), [.specificationsInsert])

/-- Step 4 of `createCar` (features insert). -/
def createFeaturesStage (sched : CreateSched) (carId : Nat) (db : DBState) (c : AppCarUpsert)
    (pr : Option PricingRow) (imgs : List ImageRow) :
    DBState × Except String (Option PricingRow × List ImageRow × List FeatureRow × List SpecRow) ×
      List StoreCall :=
  match c.features with
  | [] => createSpecsStage sched carId db c pr imgs []
  | _ :: _ =>
    match sched.featuresInsert with
    | some m => (db, .error ("Features insert failed: " ++ m), [.featuresInsert])
    | none =>
      let (db1, rows) := insertFeatureRows carId db c.features
      let (db2, res, calls) := createSpecsStage sched carId db1 c pr imgs rows
      (db2, res, .featuresInsert :: calls)

/-- Step 3 of `createCar` (images insert). -/
def createImagesStage (sched : CreateSched) (carId : Nat) (db : DBState) (c : AppCarUpsert)
    (pr : Option PricingRow) :
    DBState × Except String (Option PricingRow × List ImageRow × List FeatureRow × List SpecRow) ×
      List StoreCall :=
  match c.images with
  | [] => createFeaturesStage sched carId db c pr []
  | _ :: _ =>
    match sched.imagesInsert with
    | some m => (db, .error ("Images insert failed: " ++ m), [.imagesInsert])
    | none =>
      let (db1, rows) := insertImageRows carId db c.images
      let (db2, res, calls) := createFeaturesStage sched carId db1 c pr rows
      (db2, res, .imagesInsert :: calls)

/-- Steps 2–5 of `createCar`: the related-table inserts, in order, stopping at
the first scheduled failure. The state returned is the state reached when the
failure hit (earlier successful inserts stand). -/
def insertRelated (sched : CreateSched) (carId : Nat) (db : DBState) (c : AppCarUpsert) :
    DBState × Except String (Option PricingRow × List ImageRow × List FeatureRow × List SpecRow) ×
      List StoreCall :=
  match c.pricing with
  | none => createImagesStage sched carId db c none
  | some p =>
    match sched.pricingInsert with
    | some m => (db, .error ("Pricing insert failed: " ++ m), [.pricingInsert])
    | none =>
      let row : PricingRow := { id := db.nextId, car_id := carId, base_price := p.base_price }
      let db1 := { db with car_pricing := db.car_pricing ++ [row], nextId := db.nextId + 1 }
      let (db2, res, calls) := createImagesStage sched carId db1 c (some row)
      (db2, res, .pricingInsert :: calls)

/-- The message of the first related insert that will fail under `sched`, if
any (the failure the run of steps 2–5 stops at). -/
def firstRelatedFailure (sched : CreateSched) (c : AppCarUpsert) : Option String :=
  match c.pricing, sched.pricingInsert with
  | some _, some m => some ("Pricing insert failed: " ++ m)
  | _, _ =>
    match c.images, sched.imagesInsert with
    | _ :: _, some m => some ("Images insert failed: " ++ m)
    | _, _ =>
      match c.features, sched.featuresInsert with
      | _ :: _, some m => some ("Features insert failed: " ++ m)
      | _, _ =>
        match c.specifications, sched.specificationsInsert with
        | _ :: _, some m => some ("Specifications insert failed: " ++ m)
        | _, _ => none

def exceptError {α : Type} : Except String α → Option String
  | .error m => some m
  | .ok _ => none

/-- The `AppCar` assembled and returned by `createCar` on success: the
inserted base row spread with the related insert results, images sorted when
nonempty. -/
def assembleCreated (newCar : CarRow) (pr : Option PricingRow) (imgs : List ImageRow)
    (fts : List FeatureRow) (sps : List SpecRow) : AppCar :=
  { id := newCar.id, slug := newCar.slug, name := newCar.name
    category := newCar.category, description := newCar.description
    short_description := newCar.short_description
    available := newCar.available.getD true
    featured := newCar.featured.getD false
    hidden := newCar.hidden.getD false
    created_at := newCar.created_at, created_by := newCar.created_by
    pricing := pr, images := if imgs.length > 0 then sortImages imgs else imgs
    features := fts, specifications := sps }

/-- `createCar`. Validation, base insert outside the try block (its failure is
rethrown untranslated), then the related inserts; on a related failure the
catch block logs, best-effort deletes the just-created base row (the delete's
own result value is discarded) and rethrows the original error through the
translator. -/
def createCar (tr : String → String) (sched : CreateSched) (db : DBState)
    (carData : AppCarUpsert) (userId : Option Nat) :
    Except String AppCar × DBState × List StoreCall :=
  if carData.name = "" then
    (.error "Car name is required to create a car.", db, [])
  else
    match sched.carInsert with
    | some m => (.error m, db, [.carsInsert])
    | none =>
      let newCar := mkBaseCarRow carData userId db
      let db1 := { db with cars := db.cars ++ [newCar], nextId := db.nextId + 1 }
      match insertRelated sched newCar.id db1 carData with
      | (dbf, .error msg, calls) =>
        let dbAfter :=
          match sched.cleanupDelete with
          | some _ => dbf
          | none => { dbf with cars := dbf.cars.filter (fun r => r.id ≠ newCar.id) }
        (.error (tr msg), dbAfter, (.carsInsert :: calls) ++ [.carsDelete])
      | (dbf, .ok (pr, imgs, fts, sps), calls) =>
        (.ok (assembleCreated newCar pr imgs fts sps), dbf, .carsInsert :: calls)

/-! ## Aggregate writer — update (`updateCar`) -/

structure UpdateSched where
  baseUpdate : Option String
  pricingUpsert : Option String
  imagesFetch : Option String
  storageRemove : Option String
  imagesDelete : Option String
  imagesUpsert : Option String
  featuresDelete : Option String
  featuresInsert : Option String
  specificationsDelete : Option String
  specificationsInsert : Option String
  refetch : Option String
deriving DecidableEq

/-- The sparse base-record patch `updateCar` builds. A field is assigned for
every input field that is not undefined, but the assigned value for an
explicit null is undefined (the source converts null to undefined), and keys
carrying undefined are dropped from the serialized body: the defined value of
such a field is `none`. `jsKeyCount` counts the assigned keys as
`Object.keys` does, undefined values included. -/
structure BaseUpdatePayload where
  name : Option String
  slug : Option String
  category : Option String
  description : Option String
  short_description : Option String
  available : Option Bool
  featured : Option Bool
  hidden : Option Bool
  jsKeyCount : Nat
deriving DecidableEq

def buildBaseUpdatePayload (u : AppCarUpdate) : BaseUpdatePayload :=
  { name := u.name
    slug := u.name.map generateSlug
    category := u.category
    description := u.description.join
    short_description := u.short_description.join
    available := u.available.join
    featured := u.featured.join
    hidden := u.hidden.join
    jsKeyCount :=
      (match u.name with | some _ => 2 | none => 0) +
      (match u.category with | some _ => 1 | none => 0) +
      (match u.description with | some _ => 1 | none => 0) +
      (match u.short_description with | some _ => 1 | none => 0) +
      (match u.available with | some _ => 1 | none => 0) +
      (match u.featured with | some _ => 1 | none => 0) +
      (match u.hidden with | some _ => 1 | none => 0) }

/-- Applying the serialized patch to a stored row: only keys with defined
values reach the server. -/
def applyBaseUpdate (p : BaseUpdatePayload) (row : CarRow) : CarRow :=
  { row with
    name := p.name.getD row.name
    slug := p.slug.getD row.slug
    category := p.category.getD row.category
    description := match p.description with | some s => some s | none => row.description
    short_description := match p.short_description with | some s => some s | none => row.short_description
    available := match p.available with | some b => some b | none => row.available
    featured := match p.featured with | some b => some b | none => row.featured
    hidden := match p.hidden with | some b => some b | none => row.hidden }

/-- Step 1 of `updateCar`: patch the base row when the payload has keys.
A failure here is thrown untranslated (it happens before the try block). -/
def updateBaseStep (sched : UpdateSched) (db : DBState) (carId : Nat) (u : AppCarUpdate) :
    DBState × Except String Unit × List StoreCall :=
  let p := buildBaseUpdatePayload u
  if p.jsKeyCount > 0 then
    match sched.baseUpdate with
    | some m => (db, .error m, [.carsUpdate])
    | none =>
      ({ db with cars := db.cars.map (fun r => if r.id = carId then applyBaseUpdate p r else r) },
       .ok (), [.carsUpdate])
  else (db, .ok (), [])

/-- Pricing upsert keyed on `car_id` (insert-or-replace). -/
def upsertPricing (db : DBState) (carId : Nat) (p : PricingInsertData) : DBState :=
  if db.car_pricing.any (fun r => r.car_id == carId) then
    let replaced := db.car_pricing.map fun r =>
      if r.car_id == carId then { r with base_price := p.base_price } else r
    { db with car_pricing := replaced }
  else
    { db with
      car_pricing := db.car_pricing ++ [{ id := db.nextId, car_id := carId, base_price := p.base_price }]
      nextId := db.nextId + 1 }

/-- Step 2 of `updateCar`. -/
def updatePricingStep (sched : UpdateSched) (db : DBState) (carId : Nat) (u : AppCarUpdate) :
    DBState × Except String Unit × List StoreCall :=
  match u.pricing with
  | none => (db, .ok (), [])
  | some p =>
    match sched.pricingUpsert with
    | some m => (db, .error ("Pricing update/insert failed: " ++ m), [.pricingUpsert])
    | none => (upsertPricing db carId p, .ok (), [.pricingUpsert])

/-- Image upsert keyed on `(car_id, path)`. -/
def upsertImageOne (carId : Nat) (db : DBState) (i : ImageInsertData) : DBState :=
  if db.car_images.any (fun r => r.car_id == carId && r.path == i.path) then
    { db with car_images := db.car_images.map (fun r =>
        if r.car_id == carId && r.path == i.path then
          { r with url := i.url, is_primary := i.is_primary, sort_order := i.sort_order }
        else r) }
  else
    { db with
      car_images := db.car_images ++
        [{ id := db.nextId, car_id := carId, url := i.url, path := i.path,
           is_primary := i.is_primary, sort_order := i.sort_order }]
      nextId := db.nextId + 1 }

def upsertImages (carId : Nat) (db : DBState) (l : List ImageInsertData) : DBState :=
  l.foldl (upsertImageOne carId) db

/-- Second half of step 3 of `updateCar`: upsert every incoming image. -/
def imagesUpsertStage (sched : UpdateSched) (db : DBState) (carId : Nat)
    (incoming : List ImageInsertData) (calls : List StoreCall) :
    DBState × Except String Unit × List StoreCall :=
  if incoming.isEmpty then (db, .ok (), calls)
  else
    match sched.imagesUpsert with
    | some m => (db, .error ("Failed to upsert images: " ++ m), calls ++ [.imagesUpsert])
    | none => (upsertImages carId db incoming, .ok (), calls ++ [.imagesUpsert])

/-- The storage half of an image deletion: remove the collected paths from
the bucket when there are any; a scheduled failure is logged and otherwise
ignored. -/
def imagesStorageStep (sr : Option String) (db : DBState) (pathsToDelete : List String) :
    DBState × List StoreCall :=
  if pathsToDelete.isEmpty then (db, [])
  else
    match sr with
    | some _ => (db, [StoreCall.storageRemove pathsToDelete])
    | none =>
      ({ db with storage := db.storage.filter (fun p => !(pathsToDelete.contains p)) },
       [StoreCall.storageRemove pathsToDelete])

/-- Step 3 of `updateCar`: reconcile the image rows against the incoming
list. Existing rows whose (truthy) path is absent from the incoming paths are
deleted — storage object first (a storage failure is logged and does not stop
the row deletion), then the rows by id — and every incoming image is then
upserted. -/
def updateImagesStep (sched : UpdateSched) (db : DBState) (carId : Nat)
    (incoming : List ImageInsertData) :
    DBState × Except String Unit × List StoreCall :=
  match sched.imagesFetch with
  | some m => (db, .error ("Failed to fetch existing images: " ++ m), [.imagesSelect])
  | none =>
    let existing := db.car_images.filter (fun r => r.car_id == carId)
    let incomingPaths := incoming.map (fun i => i.path)
    let imagesToDelete := existing.filter
      (fun r => r.path != "" && !(incomingPaths.contains r.path))
    if imagesToDelete.isEmpty then
      imagesUpsertStage sched db carId incoming [.imagesSelect]
    else
      let pathsToDelete := (imagesToDelete.map (fun r => r.path)).filter (fun p => p != "")
      let idsToDelete := imagesToDelete.map (fun r => r.id)
      let storagePart := imagesStorageStep sched.storageRemove db pathsToDelete
      match sched.imagesDelete with
      | some m =>
        (storagePart.1, .error ("Failed to delete images from DB: " ++ m),
         .imagesSelect :: storagePart.2 ++ [.imagesDelete])
      | none =>
        let db2 := { storagePart.1 with
          car_images := storagePart.1.car_images.filter (fun r => !(idsToDelete.contains r.id)) }
        imagesUpsertStage sched db2 carId incoming (.imagesSelect :: storagePart.2 ++ [.imagesDelete])

/-- Step 3 of `updateCar` runs only when the payload carries an `images`
field (an empty list is truthy and does run it). -/
def updateImagesStepOpt (sched : UpdateSched) (db : DBState) (carId : Nat) :
    Option (List ImageInsertData) → DBState × Except String Unit × List StoreCall
  | none => (db, .ok (), [])
  | some incoming => updateImagesStep sched db carId incoming

/-- Step 4 of `updateCar`: wholesale replace of the feature rows. -/
def updateFeaturesStep (sched : UpdateSched) (db : DBState) (carId : Nat) :
    Option (List FeatureInsertData) → DBState × Except String Unit × List StoreCall
  | none => (db, .ok (), [])
  | some fs =>
    match sched.featuresDelete with
    | some m => (db, .error ("Failed to delete old features: " ++ m), [.featuresDelete])
    | none =>
      let db1 := { db with car_features := db.car_features.filter (fun r => r.car_id != carId) }
      if fs.isEmpty then (db1, .ok (), [.featuresDelete])
      else
        match sched.featuresInsert with
        | some m => (db1, .error ("Failed to insert new features: " ++ m),
                     [.featuresDelete, .featuresInsert])
        | none => ((insertFeatureRows carId db1 fs).1, .ok (), [.featuresDelete, .featuresInsert])

/-- Step 5 of `updateCar`: wholesale replace of the specification rows. -/
def updateSpecsStep (sched : UpdateSched) (db : DBState) (carId : Nat) :
    Option (List SpecificationInsertData) → DBState × Except String Unit × List StoreCall
  | none => (db, .ok (), [])
  | some ss =>
    match sched.specificationsDelete with
    | some m => (db, .error ("Failed to delete old specifications: " ++ m), [.specificationsDelete])
    | none =>
      let db1 := { db with
        car_specifications := db.car_specifications.filter (fun r => r.car_id != carId) }
      if ss.isEmpty then (db1, .ok (), [.specificationsDelete])
      else
        match sched.specificationsInsert with
        | some m => (db1, .error ("Failed to insert new specifications: " ++ m),
                     [.specificationsDelete, .specificationsInsert])
        | none => ((insertSpecRows carId db1 ss).1, .ok (), [.specificationsDelete, .specificationsInsert])

/-- `updateCar`. Step 1 throws untranslated; steps 2–5 sit in the try block
whose catch rethrows through the translator; the closing refetch reuses
`getCarById` and fails fatally when the car has vanished. No step rolls back
an earlier one. -/
def updateCar (tr : String → String) (sched : UpdateSched) (db : DBState) (carId : Nat)
    (u : AppCarUpdate) : Except String AppCar × DBState × List StoreCall :=
  match updateBaseStep sched db carId u with
  | (db1, .error m, calls1) => (.error m, db1, calls1)
  | (db1, .ok _, calls1) =>
    match updatePricingStep sched db1 carId u with
    | (db2, .error m, calls2) => (.error (tr m), db2, calls1 ++ calls2)
    | (db2, .ok _, calls2) =>
      match updateImagesStepOpt sched db2 carId u.images with
      | (db3, .error m, calls3) => (.error (tr m), db3, calls1 ++ calls2 ++ calls3)
      | (db3, .ok _, calls3) =>
        match updateFeaturesStep sched db3 carId u.features with
        | (db4, .error m, calls4) => (.error (tr m), db4, calls1 ++ calls2 ++ calls3 ++ calls4)
        | (db4, .ok _, calls4) =>
          match updateSpecsStep sched db4 carId u.specifications with
          | (db5, .error m, calls5) =>
            (.error (tr m), db5, calls1 ++ calls2 ++ calls3 ++ calls4 ++ calls5)
          | (db5, .ok _, calls5) =>
            let callsAll := calls1 ++ calls2 ++ calls3 ++ calls4 ++ calls5 ++ [.carsSelect]
            match getCarById tr sched.refetch db5 carId with
            | .error m => (.error m, db5, callsAll)
            | .ok none =>
              (.error ("Failed to fetch updated car " ++ toString carId ++ " after update."),
               db5, callsAll)
            | .ok (some car) => (.ok car, db5, callsAll)

/-! ## Aggregate writer — delete (`deleteCar`) -/

structure DeleteSched where
  imagesSelect : Option String
  pricingDelete : Option String
  featuresDelete : Option String
  specificationsDelete : Option String
  imagesDelete : Option String
  carDelete : Option String
  storageRemove : Option String
deriving DecidableEq

/-- `deleteCar`. The four related deletes are issued jointly and their
`{error}` result values are never read: the attached catch observes only
promise rejection, which the store client does not produce for store errors,
so a failing related delete leaves its rows in place without stopping the
flow. The base delete's error is checked; the storage removal afterwards is
logged only. -/
def deleteCar (tr : String → String) (sched : DeleteSched) (db : DBState) (carId : Nat) :
    Except String Bool × DBState × List StoreCall :=
  match sched.imagesSelect with
  | some m => (.error (tr m), db, [.imagesSelect])
  | none =>
    let imagesToDelete := db.car_images.filter (fun r => r.car_id == carId)
    let imagePathsToDelete := (imagesToDelete.map (fun r => r.path)).filter (fun p => p != "")
    let db1 :=
      if sched.pricingDelete.isSome then db
      else { db with car_pricing := db.car_pricing.filter (fun r => r.car_id != carId) }
    let db2 :=
      if sched.featuresDelete.isSome then db1
      else { db1 with car_features := db1.car_features.filter (fun r => r.car_id != carId) }
    let db3 :=
      if sched.specificationsDelete.isSome then db2
      else { db2 with car_specifications := db2.car_specifications.filter (fun r => r.car_id != carId) }
    let db4 :=
      if sched.imagesDelete.isSome then db3
      else { db3 with car_images := db3.car_images.filter (fun r => r.car_id != carId) }
    let calls : List StoreCall :=
      [.imagesSelect, .pricingDelete, .featuresDelete, .specificationsDelete, .imagesDelete]
    match sched.carDelete with
    | some m => (.error (tr m), db4, calls ++ [.carsDelete])
    | none =>
      let db5 := { db4 with cars := db4.cars.filter (fun r => r.id != carId) }
      if imagePathsToDelete.isEmpty then (.ok true, db5, calls ++ [.carsDelete])
      else
        match sched.storageRemove with
        | some _ => (.ok true, db5, calls ++ [.carsDelete, .storageRemove imagePathsToDelete])
        | none =>
          (.ok true,
           { db5 with storage := db5.storage.filter (fun p => !(imagePathsToDelete.contains p)) },
           calls ++ [.carsDelete, .storageRemove imagePathsToDelete])

/-! ## List projections (`getVisibleCarsForFleet`, `getRelatedCars`) -/

/-- `images.sort(bySortOrder).find(isPrimary) || images[0]` — the fallback
index reads the array the sort just mutated, hence the sorted head. -/
def primaryImage (images : List ImageRow) : Option ImageRow :=
  let sorted := sortImages images
  match sorted.find? (fun i => i.is_primary) with
  | some i => some i
  | none => sorted.head?

/-- Rank of the `featured` column under `ORDER BY featured DESC`
(null sorts first under descending order). -/
def featRank : Option Bool → Nat
  | none => 2
  | some true => 1
  | some false => 0

/-- `ORDER BY featured DESC, created_at DESC` as a total boolean `≤`. -/
def fleetLe (a b : CarRow) : Bool :=
  if featRank a.featured = featRank b.featured then decide (b.created_at ≤ a.created_at)
  else decide (featRank b.featured < featRank a.featured)

structure FleetCar where
  id : Nat
  slug : String
  name : String
  category : String
  shortDescription : Option String
  isFeatured : Option Bool
  primaryImageUrl : Option String
  pricePerDay : Option Int
deriving DecidableEq

def projectFleet (db : DBState) (c : CarRow) : FleetCar :=
  { id := c.id, slug := c.slug, name := c.name, category := c.category
    shortDescription := c.short_description, isFeatured := c.featured
    primaryImageUrl := (primaryImage (carImagesFor db c.id)).map (fun i => i.url)
    pricePerDay := priceFromJoin (.arr (carPricingFor db c.id)) }

/-- The rows the fleet query returns: visible cars, featured first, then
newest first. -/
def fleetRows (db : DBState) : List CarRow :=
  (db.cars.filter (fun c => c.available == some true && c.hidden == some false)).insertionSort
    (fun a b => fleetLe a b = true)

def fleetList (db : DBState) : List FleetCar := (fleetRows db).map (projectFleet db)

def getVisibleCarsForFleet (tr : String → String) (fail : Option String) (db : DBState) :
    Except String (List FleetCar) :=
  match fail with
  | some m => .error (tr m)
  | none => .ok (fleetList db)

structure RelatedCar where
  id : Nat
  slug : String
  name : String
  category : String
  primaryImageUrl : Option String
  pricePerDay : Option Int
deriving DecidableEq

def projectRelated (db : DBState) (c : CarRow) : RelatedCar :=
  { id := c.id, slug := c.slug, name := c.name, category := c.category
    primaryImageUrl := (primaryImage (carImagesFor db c.id)).map (fun i => i.url)
    pricePerDay := priceFromJoin (.arr (carPricingFor db c.id)) }

/-- The rows the related query returns: same category, not the car itself,
visible, capped at `limit`. -/
def relatedRows (db : DBState) (carId : Nat) (category : String) (limit : Nat) : List CarRow :=
  (db.cars.filter (fun c =>
    c.category == category && c.id != carId && c.available == some true && c.hidden == some false)).take limit

/-- `getRelatedCars`. A missing reference car or a falsy category returns the
empty list rather than an error. -/
def getRelatedCars (tr : String → String) (carFail relFail : Option String) (db : DBState)
    (carId : Nat) (limit : Nat) : Except String (List RelatedCar) :=
  match carFail with
  | some m => .error (tr m)
  | none =>
    match db.cars.find? (fun c => c.id == carId) with
    | none => .ok []
    | some current =>
      if current.category = "" then .ok []
      else
        match relFail with
        | some m => .error (tr m)
        | none => .ok ((relatedRows db carId current.category limit).map (projectRelated db))

deriving instance DecidableEq for Except

/-! ## Concrete sample inputs used by the closed theorems -/

def emptyDB : DBState :=
  { cars := [], car_pricing := [], car_images := [], car_features := [],
    car_specifications := [], storage := [], nextId := 1, now := 0 }

def schedOkC : CreateSched :=
  { carInsert := none, pricingInsert := none, imagesInsert := none,
    featuresInsert := none, specificationsInsert := none, cleanupDelete := none }

def baseCar1 : CarRow :=
  { id := 1, slug := "car-one", name := "Car One", category := "SUV",
    description := some "hello", short_description := none,
    available := some true, featured := some false, hidden := some false,
    created_at := 0, created_by := none }

def wCarData : AppCarUpsert :=
  { name := "", category := "SUV", description := none, short_description := none,
    available := none, featured := none, hidden := none, pricing := none,
    images := [], features := [], specifications := [] }

def c1data : AppCarUpsert :=
  { name := "Car One", category := "SUV", description := none, short_description := none,
    available := none, featured := none, hidden := none, pricing := none,
    images := [], features := [{ name := "gps" }], specifications := [] }

def c1sched : CreateSched :=
  { carInsert := none, pricingInsert := none, imagesInsert := none,
    featuresInsert := some "boom", specificationsInsert := none,
    cleanupDelete := some "cleanup refused" }

def c1schedClean : CreateSched :=
  { carInsert := none, pricingInsert := none, imagesInsert := none,
    featuresInsert := some "boom", specificationsInsert := none, cleanupDelete := none }

def c2pricing : PricingRow := { id := 5, car_id := 1, base_price := 100 }

def c2sched : DeleteSched :=
  { imagesSelect := none, pricingDelete := some "disk full", featuresDelete := none,
    specificationsDelete := none, imagesDelete := none, carDelete := none,
    storageRemove := none }

def c2db : DBState :=
  { cars := [baseCar1], car_pricing := [c2pricing], car_images := [],
    car_features := [], car_specifications := [], storage := [], nextId := 10, now := 5 }

def schedOkU : UpdateSched :=
  { baseUpdate := none, pricingUpsert := none, imagesFetch := none,
    storageRemove := none, imagesDelete := none, imagesUpsert := none,
    featuresDelete := none, featuresInsert := none,
    specificationsDelete := none, specificationsInsert := none, refetch := none }

def c3u : AppCarUpdate :=
  { name := none, category := none, description := some none, short_description := none,
    available := none, featured := none, hidden := none, pricing := none,
    images := none, features := none, specifications := none }

def c3db : DBState :=
  { cars := [baseCar1], car_pricing := [], car_images := [], car_features := [],
    car_specifications := [], storage := [], nextId := 10, now := 1 }

def c4u : AppCarUpdate :=
  { name := none, category := none, description := none, short_description := none,
    available := none, featured := none, hidden := none, pricing := none,
    images := some [], features := none, specifications := none }

def c4img : ImageRow :=
  { id := 21, car_id := 1, url := "u", path := "", is_primary := false, sort_order := none }

def c4db : DBState :=
  { cars := [baseCar1], car_pricing := [], car_images := [c4img], car_features := [],
    car_specifications := [], storage := [], nextId := 30, now := 2 }

def c4imgKeep : ImageRow :=
  { id := 22, car_id := 1, url := "v", path := "p1", is_primary := true, sort_order := some 0 }

def c4imgOther : ImageRow :=
  { id := 23, car_id := 2, url := "w", path := "q", is_primary := false, sort_order := none }

def c4db2 : DBState :=
  { cars := [baseCar1], car_pricing := [], car_images := [c4img, c4imgKeep, c4imgOther],
    car_features := [], car_specifications := [], storage := ["p1", "q"], nextId := 40, now := 3 }

def c4schedW : UpdateSched :=
  { baseUpdate := none, pricingUpsert := none, imagesFetch := none,
    storageRemove := some "bucket offline", imagesDelete := none, imagesUpsert := none,
    featuresDelete := none, featuresInsert := none,
    specificationsDelete := none, specificationsInsert := none, refetch := none }

def c6imgA : ImageRow :=
  { id := 10, car_id := 1, url := "u2", path := "a", is_primary := false, sort_order := some 2 }

def c6imgB : ImageRow :=
  { id := 11, car_id := 1, url := "u0", path := "b", is_primary := false, sort_order := some 0 }

def c6imgC : ImageRow :=
  { id := 12, car_id := 1, url := "u1", path := "c", is_primary := false, sort_order := some 1 }

def c6db : DBState :=
  { cars := [baseCar1], car_pricing := [], car_images := [c6imgA, c6imgB, c6imgC],
    car_features := [], car_specifications := [], storage := [], nextId := 20, now := 0 }

/-- The assembled aggregate `getCarById` returns on `c6db`. -/
def c6car : AppCar :=
  { id := 1, slug := "car-one", name := "Car One", category := "SUV",
    description := some "hello", short_description := none,
    available := true, featured := false, hidden := false,
    created_at := 0, created_by := none, pricing := none,
    images := [c6imgB, c6imgC, c6imgA], features := [], specifications := [] }

/-- The image sort keys of the aggregate read off `c6db`, if the read returns
a car. -/
def c6sortKeys : Option (List Int) :=
  match getCarById id none c6db 1 with
  | .ok (some car) => some (car.images.map (fun i => i.sort_order.getD 0))
  | _ => none

def c8carA : CarRow :=
  { id := 1, slug := "a", name := "A", category := "SUV", description := none,
    short_description := none, available := some true, featured := some false,
    hidden := some false, created_at := 10, created_by := none }

def c8carB : CarRow :=
  { id := 2, slug := "b", name := "B", category := "SUV", description := none,
    short_description := none, available := some true, featured := some true,
    hidden := some false, created_at := 5, created_by := none }

def c8carHidden : CarRow :=
  { id := 3, slug := "h", name := "H", category := "SUV", description := none,
    short_description := none, available := some true, featured := some true,
    hidden := some true, created_at := 20, created_by := none }

def c8db : DBState :=
  { cars := [c8carA, c8carB, c8carHidden], car_pricing := [], car_images := [],
    car_features := [], car_specifications := [], storage := [], nextId := 50, now := 9 }

def c8x : FleetCar := projectFleet c8db c8carB

def c9carRef : CarRow :=
  { id := 1, slug := "r", name := "R", category := "SUV", description := none,
    short_description := none, available := some true, featured := some false,
    hidden := some false, created_at := 0, created_by := none }

def c9carS : CarRow :=
  { id := 2, slug := "s", name := "S", category := "SUV", description := none,
    short_description := none, available := some true, featured := some false,
    hidden := some false, created_at := 1, created_by := none }

def c9carT : CarRow :=
  { id := 3, slug := "t", name := "T", category := "SUV", description := none,
    short_description := none, available := some true, featured := some false,
    hidden := some false, created_at := 2, created_by := none }

def c9carU : CarRow :=
  { id := 4, slug := "u", name := "U", category := "SUV", description := none,
    short_description := none, available := some true, featured := some false,
    hidden := some false, created_at := 3, created_by := none }

def c9db : DBState :=
  { cars := [c9carRef, c9carS, c9carT, c9carU], car_pricing := [], car_images := [],
    car_features := [], car_specifications := [], storage := [], nextId := 60, now := 4 }

def c9list : List RelatedCar := (relatedRows c9db 1 "SUV" 2).map (projectRelated c9db)

def c10data : AppCarUpsert :=
  { name := "Car Ten", category := "SUV", description := none, short_description := none,
    available := none, featured := none, hidden := none, pricing := none,
    images := [], features := [], specifications := [] }

/-- The paths of a car's image rows that the image reconciliation of
`updateCar` can delete: the stored paths that are truthy. -/
def deletablePaths (db : DBState) (carId : Nat) : List String :=
  (db.car_images.filter (fun r => r.car_id == carId && r.path != "")).map (fun r => r.path)

/-! ## Theorems -/


theorem toLower_not_upper (c : Char) :
    ¬(65 ≤ (Char.toLower c).toNat ∧ (Char.toLower c).toNat ≤ 90) := by
  unfold Char.toLower
  by_cases h : 65 ≤ c.toNat ∧ c.toNat ≤ 90
  · rw [if_pos (by exact ⟨h.1, h.2⟩)]
    obtain ⟨h1, h2⟩ := h
    generalize hn : c.toNat = n at h1 h2
    interval_cases n <;> decide
  · rw [if_neg (by omega)]
    omega

theorem isSlugChar_of_word_toLower (x : Char) (h : isWordChar (Char.toLower x) = true) :
    isSlugChar (Char.toLower x) = true := by
  have hnu := toLower_not_upper x
  simp only [isWordChar, decide_eq_true_eq] at h
  simp only [isSlugChar, decide_eq_true_eq]
  omega

theorem mem_replaceSpaceRuns {c : Char} :
    ∀ {prev : Bool} {l : List Char}, c ∈ replaceSpaceRuns prev l → c = '-' ∨ c ∈ l := by
  intro prev l
  induction l generalizing prev with
  | nil => simp [replaceSpaceRuns]
  | cons a as ih =>
    intro h
    simp only [replaceSpaceRuns] at h
    by_cases hs : isJsSpace a
    · rw [if_pos hs] at h
      rcases List.mem_append.1 h with h1 | h2
      · cases prev <;> simp_all
      · rcases ih h2 with h3 | h4
        · exact Or.inl h3
        · exact Or.inr (List.mem_cons_of_mem a h4)
    · rw [if_neg hs] at h
      rcases List.mem_cons.1 h with h1 | h2
      · exact Or.inr (h1 ▸ List.mem_cons_self a as)
      · rcases ih h2 with h3 | h4
        · exact Or.inl h3
        · exact Or.inr (List.mem_cons_of_mem a h4)

theorem mem_collapseHyphens {c : Char} :
    ∀ {prev : Bool} {l : List Char}, c ∈ collapseHyphens prev l → c = '-' ∨ c ∈ l := by
  intro prev l
  induction l generalizing prev with
  | nil => simp [collapseHyphens]
  | cons a as ih =>
    intro h
    simp only [collapseHyphens] at h
    by_cases hs : a = '-'
    · rw [if_pos hs] at h
      rcases List.mem_append.1 h with h1 | h2
      · cases prev <;> simp_all
      · rcases ih h2 with h3 | h4
        · exact Or.inl h3
        · exact Or.inr (List.mem_cons_of_mem a h4)
    · rw [if_neg hs] at h
      rcases List.mem_cons.1 h with h1 | h2
      · exact Or.inr (h1 ▸ List.mem_cons_self a as)
      · rcases ih h2 with h3 | h4
        · exact Or.inl h3
        · exact Or.inr (List.mem_cons_of_mem a h4)

theorem mem_trimTrailingHyphens {c : Char} :
    ∀ {l : List Char}, c ∈ trimTrailingHyphens l → c ∈ l := by
  intro l
  induction l with
  | nil => simp [trimTrailingHyphens]
  | cons a as ih =>
    intro h
    simp only [trimTrailingHyphens] at h
    cases hr : trimTrailingHyphens as with
    | nil =>
      rw [hr] at h
      by_cases ha : a = '-'
      · simp [ha] at h
      · rw [if_neg ha] at h
        simp only [List.mem_singleton] at h
        exact h ▸ List.mem_cons_self a as
    | cons b bs =>
      rw [hr] at h
      rcases List.mem_cons.1 h with h1 | h2
      · exact h1 ▸ List.mem_cons_self a as
      · exact List.mem_cons_of_mem a (ih (hr ▸ h2))


theorem collapseHyphens_ok :
    ∀ l : List Char, (∀ prev, (collapseHyphens prev l).Chain' NotBothHyphens) ∧
      (collapseHyphens true l).head? ≠ some '-' := by
  intro l
  induction l with
  | nil => simp [collapseHyphens]
  | cons a as ih =>
    obtain ⟨ihChain, ihHead⟩ := ih
    constructor
    · intro prev
      simp only [collapseHyphens]
      by_cases ha : a = '-'
      · rw [if_pos ha]
        cases prev with
        | true => simpa using ihChain true
        | false =>
          rw [show (if false then ([] : List Char) else ['-']) = ['-'] from rfl,
            List.singleton_append]
          rw [List.chain'_cons']
          refine ⟨?_, ihChain true⟩
          intro y hy
          intro hcontra
          exact ihHead (by rw [hy, hcontra.2])
      · rw [if_neg ha]
        rw [List.chain'_cons']
        refine ⟨?_, ihChain false⟩
        intro y _ hcontra
        exact ha hcontra.1
    · simp only [collapseHyphens]
      by_cases ha : a = '-'
      · rw [if_pos ha]
        simpa using ihHead
      · rw [if_neg ha]
        simp only [List.head?_cons, ne_eq, Option.some.injEq]
        exact ha

theorem prefix_trimTrailingHyphens :
    ∀ l : List Char, (trimTrailingHyphens l) <+: l := by
  intro l
  induction l with
  | nil => simp [trimTrailingHyphens]
  | cons a as ih =>
    simp only [trimTrailingHyphens]
    cases hr : trimTrailingHyphens as with
    | nil =>
      by_cases ha : a = '-'
      · rw [if_pos ha]; exact List.nil_prefix
      · rw [if_neg ha]
        exact ⟨as, rfl⟩
    | cons b bs =>
      rw [hr] at ih
      obtain ⟨t, ht⟩ := ih
      exact ⟨t, by rw [List.cons_append, ht]⟩

theorem trimTrailingHyphens_head? :
    ∀ l : List Char, trimTrailingHyphens l = [] ∨ (trimTrailingHyphens l).head? = l.head? := by
  intro l
  cases l with
  | nil => exact Or.inl rfl
  | cons a as =>
    simp only [trimTrailingHyphens]
    cases hr : trimTrailingHyphens as with
    | nil =>
      by_cases ha : a = '-'
      · rw [if_pos ha]; exact Or.inl rfl
      · rw [if_neg ha]; exact Or.inr rfl
    | cons b bs => exact Or.inr rfl

theorem trimTrailingHyphens_getLast? :
    ∀ l : List Char, (trimTrailingHyphens l).getLast? ≠ some '-' := by
  intro l
  induction l with
  | nil => simp [trimTrailingHyphens]
  | cons a as ih =>
    simp only [trimTrailingHyphens]
    cases hr : trimTrailingHyphens as with
    | nil =>
      by_cases ha : a = '-'
      · rw [if_pos ha]; simp
      · rw [if_neg ha]
        simp only [List.getLast?_singleton, ne_eq, Option.some.injEq]
        exact ha
    | cons b bs =>
      rw [List.getLast?_cons_cons]
      rw [hr] at ih
      exact ih

/-- C5. For every string `s`, `generateSlug s` contains only lowercase word
characters and hyphens, has no leading or trailing hyphen, and has no two
consecutive hyphens; and `generateSlug "Tesla Model S!!" = "tesla-model-s"`. -/
theorem generateSlug_spec (s : String) :
    (∀ c ∈ (generateSlug s).data, isSlugChar c = true) ∧
    (generateSlug s).data.head? ≠ some '-' ∧
    (generateSlug s).data.getLast? ≠ some '-' ∧
    (generateSlug s).data.Chain' NotBothHyphens ∧
    generateSlug "Tesla Model S!!" = "tesla-model-s" := by
  have hdata : (generateSlug s).data =
      trimTrailingHyphens
        (((collapseHyphens false
          ((replaceSpaceRuns false (s.data.map Char.toLower)).filter
            (fun c => isWordChar c || c = '-'))).dropWhile (fun c => c = '-'))) := rfl
  refine ⟨?_, ?_, ?_, ?_, by decide⟩
  · intro c hc
    rw [hdata] at hc
    have hc1 := mem_trimTrailingHyphens hc
    have hc2 : c ∈ collapseHyphens false
        ((replaceSpaceRuns false (s.data.map Char.toLower)).filter
          (fun c => isWordChar c || c = '-')) :=
      (List.dropWhile_sublist (fun c => c = '-')).subset hc1
    rcases mem_collapseHyphens hc2 with h | h
    · subst h; decide
    · have hfilt := List.of_mem_filter h
      have hmem := List.mem_of_mem_filter h
      rcases mem_replaceSpaceRuns hmem with h2 | h2
      · subst h2; decide
      · rcases List.mem_map.1 h2 with ⟨x, _, hx⟩
        subst hx
        rcases Bool.or_eq_true_iff.1 hfilt with hw | hh
        · exact isSlugChar_of_word_toLower x hw
        · have : Char.toLower x = '-' := by simpa using hh
          rw [this]; decide
  · rw [hdata]
    rcases trimTrailingHyphens_head?
      (((collapseHyphens false
        ((replaceSpaceRuns false (s.data.map Char.toLower)).filter
          (fun c => isWordChar c || c = '-'))).dropWhile (fun c => c = '-'))) with h | h
    · rw [h]; simp
    · rw [h]
      have hd := List.head?_dropWhile_not (fun c : Char => c = '-')
        (collapseHyphens false
          ((replaceSpaceRuns false (s.data.map Char.toLower)).filter
            (fun c => isWordChar c || c = '-')))
      revert hd
      cases hh : ((collapseHyphens false
          ((replaceSpaceRuns false (s.data.map Char.toLower)).filter
            (fun c => isWordChar c || c = '-'))).dropWhile (fun c => c = '-')).head? with
      | none => simp
      | some x =>
        intro hd
        simp only [decide_eq_false_iff_not] at hd
        simp only [ne_eq, Option.some.injEq]
        exact fun hcontra => hd (by rw [hcontra])
  · rw [hdata]
    exact trimTrailingHyphens_getLast? _
  · rw [hdata]
    have hchain := (collapseHyphens_ok
      ((replaceSpaceRuns false (s.data.map Char.toLower)).filter
        (fun c => isWordChar c || c = '-'))).1 false
    have hdrop := hchain.suffix (List.dropWhile_suffix (fun c => c = '-'))
    exact hdrop.prefix (prefix_trimTrailingHyphens _)

/-! ### Create: validation (C7), compensation (C1), description default (C10) -/

/-- C7. A create whose payload has an empty name fails with the validation
error before any store call is made: the result is the validation error, the
state is unchanged and the call trace is empty. -/
theorem createCar_empty_name_validation (tr : String → String) (sched : CreateSched)
    (db : DBState) (carData : AppCarUpsert) (userId : Option Nat)
    (h : carData.name = "") :
    createCar tr sched db carData userId =
      (.error "Car name is required to create a car.", db, []) := by
  simp [createCar, h]

theorem createCar_empty_name_validation_witness :
    wCarData.name = "" ∧
    createCar id schedOkC emptyDB wCarData none =
      (.error "Car name is required to create a car.", emptyDB, []) :=
  ⟨rfl, createCar_empty_name_validation id schedOkC emptyDB wCarData none rfl⟩

theorem exceptError_insertRelated (sched : CreateSched) (carId : Nat) (db : DBState)
    (c : AppCarUpsert) :
    exceptError (insertRelated sched carId db c).2.1 = firstRelatedFailure sched c := by
  unfold insertRelated firstRelatedFailure createImagesStage createFeaturesStage createSpecsStage
  cases hp : c.pricing <;> cases hps : sched.pricingInsert <;>
    cases hi : c.images <;> cases his : sched.imagesInsert <;>
      cases hf : c.features <;> cases hfs : sched.featuresInsert <;>
        cases hs : c.specifications <;> cases hss : sched.specificationsInsert <;>
          simp [exceptError]

theorem insertImageRows_cars (carId : Nat) (l : List ImageInsertData) :
    ∀ db : DBState, ((insertImageRows carId db l).1).cars = db.cars := by
  induction l with
  | nil => intro db; rfl
  | cons i rest ih => intro db; simp [insertImageRows, ih]

theorem insertFeatureRows_cars (carId : Nat) (l : List FeatureInsertData) :
    ∀ db : DBState, ((insertFeatureRows carId db l).1).cars = db.cars := by
  induction l with
  | nil => intro db; rfl
  | cons f rest ih => intro db; simp [insertFeatureRows, ih]

theorem insertSpecRows_cars (carId : Nat) (l : List SpecificationInsertData) :
    ∀ db : DBState, ((insertSpecRows carId db l).1).cars = db.cars := by
  induction l with
  | nil => intro db; rfl
  | cons s rest ih => intro db; simp [insertSpecRows, ih]

theorem createSpecsStage_cars (sched : CreateSched) (carId : Nat) (db : DBState)
    (c : AppCarUpsert) (pr : Option PricingRow) (imgs : List ImageRow) (fts : List FeatureRow) :
    ((createSpecsStage sched carId db c pr imgs fts).1).cars = db.cars := by
  unfold createSpecsStage
  cases c.specifications <;> cases sched.specificationsInsert <;>
    simp [insertSpecRows_cars]

theorem createFeaturesStage_cars (sched : CreateSched) (carId : Nat) (db : DBState)
    (c : AppCarUpsert) (pr : Option PricingRow) (imgs : List ImageRow) :
    ((createFeaturesStage sched carId db c pr imgs).1).cars = db.cars := by
  unfold createFeaturesStage
  cases c.features <;> cases sched.featuresInsert <;>
    simp [createSpecsStage_cars, insertFeatureRows_cars]

theorem createImagesStage_cars (sched : CreateSched) (carId : Nat) (db : DBState)
    (c : AppCarUpsert) (pr : Option PricingRow) :
    ((createImagesStage sched carId db c pr).1).cars = db.cars := by
  unfold createImagesStage
  cases c.images <;> cases sched.imagesInsert <;>
    simp [createFeaturesStage_cars, insertImageRows_cars]

theorem insertRelated_cars (sched : CreateSched) (carId : Nat) (db : DBState)
    (c : AppCarUpsert) :
    ((insertRelated sched carId db c).1).cars = db.cars := by
  unfold insertRelated
  cases c.pricing <;> cases sched.pricingInsert <;>
    simp [createImagesStage_cars]

/-- C1. When the base insert succeeds and a related insert fails, `createCar`
surfaces the translated original related-insert error (whatever the
compensating delete does: `sched.cleanupDelete` is unconstrained, so a failing
compensating delete is not propagated), the compensating delete of the base
row is attempted, and when it succeeds a subsequent read of the new id finds
nothing. -/
theorem createCar_compensating_delete (tr : String → String) (sched : CreateSched)
    (db : DBState) (carData : AppCarUpsert) (userId : Option Nat) (msg : String)
    (hname : carData.name ≠ "") (hroot : sched.carInsert = none)
    (hfail : firstRelatedFailure sched carData = some msg) :
    (createCar tr sched db carData userId).1 = .error (tr msg) ∧
    StoreCall.carsDelete ∈ (createCar tr sched db carData userId).2.2 ∧
    (sched.cleanupDelete = none →
      getCarById tr none (createCar tr sched db carData userId).2.1 db.nextId = .ok none) := by
  have herr := exceptError_insertRelated sched (mkBaseCarRow carData userId db).id
    { db with cars := db.cars ++ [mkBaseCarRow carData userId db], nextId := db.nextId + 1 }
    carData
  rw [hfail] at herr
  cases hrel : insertRelated sched (mkBaseCarRow carData userId db).id
      { db with cars := db.cars ++ [mkBaseCarRow carData userId db], nextId := db.nextId + 1 }
      carData with
  | mk dbf rest =>
    obtain ⟨res, calls⟩ := rest
    rw [hrel] at herr
    cases res with
    | ok v => simp [exceptError] at herr
    | error m =>
      simp only [exceptError, Option.some.injEq] at herr
      subst herr
      refine ⟨?_, ?_, ?_⟩
      · simp only [createCar, if_neg hname, hroot, hrel]
      · simp only [createCar, if_neg hname, hroot, hrel]
        simp
      · intro hclean
        simp only [createCar, if_neg hname, hroot, hrel, hclean]
        simp only [getCarById]
        have hfind : (({ dbf with
            cars := dbf.cars.filter (fun r => r.id ≠ (mkBaseCarRow carData userId db).id) } :
              DBState).cars.find? (fun c => c.id == db.nextId)) = none := by
          apply List.find?_eq_none.2
          intro x hx
          have hx2 := List.of_mem_filter hx
          simp only [decide_eq_true_eq] at hx2
          have hid : (mkBaseCarRow carData userId db).id = db.nextId := rfl
          rw [hid] at hx2
          simpa using hx2
        rw [hfind]

theorem createCar_compensating_delete_witness :
    (createCar id c1sched emptyDB c1data none).1 = .error "Features insert failed: boom" ∧
    StoreCall.carsDelete ∈ (createCar id c1sched emptyDB c1data none).2.2 ∧
    getCarById id none (createCar id c1schedClean emptyDB c1data none).2.1 emptyDB.nextId =
      .ok none := by
  have h1 := createCar_compensating_delete id c1sched emptyDB c1data none
    "Features insert failed: boom" (by decide) rfl (by decide)
  have h2 := createCar_compensating_delete id c1schedClean emptyDB c1data none
    "Features insert failed: boom" (by decide) rfl (by decide)
  exact ⟨h1.1, h1.2.1, h2.2.2 rfl⟩

/-- C10. A create whose payload leaves `description` null or absent (both read
through `??` in the source, hence one `none` here) inserts the base row with
`description` the empty string, never null: on the success path the returned
view and the stored row for the new id both carry `some ""`. -/
theorem createCar_description_empty (tr : String → String) (sched : CreateSched)
    (db : DBState) (carData : AppCarUpsert) (userId : Option Nat)
    (hname : carData.name ≠ "") (hdesc : carData.description = none)
    (hroot : sched.carInsert = none)
    (hrel : firstRelatedFailure sched carData = none) :
    ∃ car, (createCar tr sched db carData userId).1 = .ok car ∧ car.description = some "" ∧
      ∃ row ∈ (createCar tr sched db carData userId).2.1.cars,
        row.id = db.nextId ∧ row.description = some "" := by
  have herr := exceptError_insertRelated sched (mkBaseCarRow carData userId db).id
    { db with cars := db.cars ++ [mkBaseCarRow carData userId db], nextId := db.nextId + 1 }
    carData
  rw [hrel] at herr
  have hcars := insertRelated_cars sched (mkBaseCarRow carData userId db).id
    { db with cars := db.cars ++ [mkBaseCarRow carData userId db], nextId := db.nextId + 1 }
    carData
  cases hrelv : insertRelated sched (mkBaseCarRow carData userId db).id
      { db with cars := db.cars ++ [mkBaseCarRow carData userId db], nextId := db.nextId + 1 }
      carData with
  | mk dbf rest =>
    obtain ⟨res, calls⟩ := rest
    rw [hrelv] at herr hcars
    cases res with
    | error m => simp [exceptError] at herr
    | ok v =>
      obtain ⟨pr, imgs, fts, sps⟩ := v
      refine ⟨assembleCreated (mkBaseCarRow carData userId db) pr imgs fts sps, ?_, ?_, ?_⟩
      · simp only [createCar, if_neg hname, hroot, hrelv]
      · show (mkBaseCarRow carData userId db).description = some ""
        simp [mkBaseCarRow, hdesc]
      · refine ⟨mkBaseCarRow carData userId db, ?_, rfl, ?_⟩
        · have hcars2 : dbf.cars = db.cars ++ [mkBaseCarRow carData userId db] := by
            simpa using hcars
          simp only [createCar, if_neg hname, hroot, hrelv]
          rw [hcars2]
          simp
        · simp [mkBaseCarRow, hdesc]

theorem createCar_description_empty_witness :
    ∃ car, (createCar id schedOkC emptyDB c10data none).1 = .ok car ∧
      car.description = some "" ∧
      ∃ row ∈ (createCar id schedOkC emptyDB c10data none).2.1.cars,
        row.id = emptyDB.nextId ∧ row.description = some "" :=
  createCar_description_empty id schedOkC emptyDB c10data none (by decide) rfl rfl rfl

/-! ### Delete (C2): the related-delete failures cannot abort the flow -/

/-- C2. The four related deletes of `deleteCar` resolve with result values the
source never reads (its catch handler only sees promise rejection, which the
store client does not produce for store errors), so — against the claim and
the source's own "Re-throw to stop the process" comment — a failing related
delete does not abort the flow: with the pricing delete failing, `deleteCar`
still reports success, the base row is gone and the pricing row is left
behind. -/
theorem deleteCar_ignores_related_delete_failure :
    (deleteCar id c2sched c2db 1).1 = .ok true ∧
    ((deleteCar id c2sched c2db 1).2.1).cars = [] ∧
    ((deleteCar id c2sched c2db 1).2.1).car_pricing = [c2pricing] := by
  refine ⟨rfl, ?_, rfl⟩
  decide

/-! ### Aggregate reads (C6): image ordering -/

theorem imageLe_trans (a b c : ImageRow) (h1 : imageLe a b = true) (h2 : imageLe b c = true) :
    imageLe a c = true := by
  simp only [imageLe, decide_eq_true_eq] at *
  omega

theorem imageLe_total (a b : ImageRow) : imageLe a b || imageLe b a := by
  simp only [imageLe]
  by_cases h : a.sort_order.getD 0 ≤ b.sort_order.getD 0
  · simp [h]
  · simp only [Bool.or_eq_true, decide_eq_true_eq]
    omega

theorem sortImages_pairwise (l : List ImageRow) :
    (sortImages l).Pairwise (fun a b => a.sort_order.getD 0 ≤ b.sort_order.getD 0) := by
  letI : IsTotal ImageRow (fun a b => imageLe a b = true) :=
    ⟨fun a b => by simpa using imageLe_total a b⟩
  letI : IsTrans ImageRow (fun a b => imageLe a b = true) :=
    ⟨fun a b c => imageLe_trans a b c⟩
  have h := List.sorted_insertionSort (fun a b => imageLe a b = true) l
  exact h.imp (fun hab => by simpa [imageLe] using hab)

theorem assembleAppCar_images_sorted (car : CarRow) (p : PricingJoin) (images : List ImageRow)
    (features : List FeatureRow) (specs : List SpecRow) :
    ((assembleAppCar car p images features specs).images).Pairwise
      (fun a b => a.sort_order.getD 0 ≤ b.sort_order.getD 0) := by
  show (if images.length > 0 then sortImages images else images).Pairwise _
  by_cases h : images.length > 0
  · rw [if_pos h]; exact sortImages_pairwise images
  · rw [if_neg h]
    have hnil : images = [] := List.length_eq_zero.1 (by omega)
    subst hnil; simp

/-- C6. Every aggregate read (`getCarById` or `getCarBySlug`) returns its
images sorted ascending by `sort_order` with a null value reading as 0 (rows
from the store carry every selected column, so the source's first-element
field test holds exactly when the list is nonempty); in particular, on a
database whose car carries images with keys 2, 0, 1 the read returns keys
0, 1, 2. -/
theorem getCar_images_sorted (tr : String → String) :
    (∀ (db : DBState) (i : Nat) (car : AppCar), getCarById tr none db i = .ok (some car) →
      car.images.Pairwise (fun a b => a.sort_order.getD 0 ≤ b.sort_order.getD 0)) ∧
    (∀ (db : DBState) (s : String) (car : AppCar), getCarBySlug tr none db s = .ok (some car) →
      car.images.Pairwise (fun a b => a.sort_order.getD 0 ≤ b.sort_order.getD 0)) ∧
    c6sortKeys = some [0, 1, 2] := by
  refine ⟨?_, ?_, by decide⟩
  · intro db i car h
    simp only [getCarById] at h
    cases hf : db.cars.find? (fun c => c.id == i) with
    | none => rw [hf] at h; simp at h
    | some c0 =>
      rw [hf] at h
      simp only [Except.ok.injEq, Option.some.injEq] at h
      subst h
      exact assembleAppCar_images_sorted c0 _ _ _ _
  · intro db s car h
    simp only [getCarBySlug] at h
    cases hf : db.cars.find? (fun c => c.slug == s) with
    | none => rw [hf] at h; simp at h
    | some c0 =>
      rw [hf] at h
      simp only [Except.ok.injEq, Option.some.injEq] at h
      subst h
      exact assembleAppCar_images_sorted c0 _ _ _ _

theorem getCar_images_sorted_witness :
    c6car.images.Pairwise (fun a b => a.sort_order.getD 0 ≤ b.sort_order.getD 0) :=
  (getCar_images_sorted id).1 c6db 1 c6car (by decide)

/-! ### Fleet listing (C8) -/

theorem fleetLe_bool (a b : CarRow) :
    fleetLe a b = true ↔ (featRank b.featured < featRank a.featured ∨
      (featRank a.featured = featRank b.featured ∧ b.created_at ≤ a.created_at)) := by
  unfold fleetLe
  by_cases e : featRank a.featured = featRank b.featured
  · rw [if_pos e]
    simp only [decide_eq_true_eq]
    constructor
    · intro h; exact Or.inr ⟨e, h⟩
    · intro h
      rcases h with h | ⟨_, h⟩
      · omega
      · exact h
  · rw [if_neg e]
    simp only [decide_eq_true_eq]
    constructor
    · intro h; exact Or.inl h
    · intro h
      rcases h with h | ⟨h, _⟩
      · exact h
      · exact absurd h e

theorem fleetLe_trans (a b c : CarRow) (h1 : fleetLe a b = true) (h2 : fleetLe b c = true) :
    fleetLe a c = true := by
  rw [fleetLe_bool] at h1 h2 ⊢
  omega

theorem fleetLe_total (a b : CarRow) : fleetLe a b || fleetLe b a := by
  simp only [Bool.or_eq_true, fleetLe_bool]
  omega

theorem fleetRows_pairwise (db : DBState) :
    (fleetRows db).Pairwise (fun a b => fleetLe a b = true) := by
  letI : IsTotal CarRow (fun a b => fleetLe a b = true) :=
    ⟨fun a b => by simpa using fleetLe_total a b⟩
  letI : IsTrans CarRow (fun a b => fleetLe a b = true) :=
    ⟨fun a b c => fleetLe_trans a b c⟩
  exact List.sorted_insertionSort (fun a b => fleetLe a b = true)
    (db.cars.filter (fun c => c.available == some true && c.hidden == some false))

theorem fleetList_mem (db : DBState) :
    ∀ x ∈ fleetList db, ∃ c ∈ db.cars, x.id = c.id ∧ c.available = some true ∧
      c.hidden = some false ∧ x.isFeatured = c.featured := by
  intro x hx
  simp only [fleetList, List.mem_map] at hx
  obtain ⟨r, hr, hxr⟩ := hx
  have hr2 : r ∈ db.cars.filter (fun c => c.available == some true && c.hidden == some false) := by
    simpa [fleetRows, List.mem_insertionSort] using hr
  have hmem := List.mem_of_mem_filter hr2
  have hprop := List.of_mem_filter hr2
  simp only [Bool.and_eq_true, beq_iff_eq] at hprop
  exact ⟨r, hmem, by rw [← hxr]; rfl, hprop.1, hprop.2, by rw [← hxr]; rfl⟩

theorem fleetList_featured_first (db : DBState) :
    (fleetList db).Pairwise
      (fun a b => ¬(a.isFeatured = some false ∧ b.isFeatured = some true)) := by
  refine List.Pairwise.map (projectFleet db) ?_ (fleetRows_pairwise db)
  intro a b hab hcontra
  obtain ⟨hfa, hfb⟩ := hcontra
  have ha : a.featured = some false := hfa
  have hb : b.featured = some true := hfb
  unfold fleetLe at hab
  rw [ha, hb] at hab
  simp [featRank] at hab

/-- C8. `getVisibleCarsForFleet` returns exactly the projection of the
visible rows: every returned car corresponds to a stored row with
`available = true` and `hidden = false` (so no hidden or unavailable car is
ever returned), every `featured = true` car precedes every `featured = false`
car, and the underlying row order is featured descending then creation time
descending. -/
theorem getVisibleCarsForFleet_spec (tr : String → String) (db : DBState) :
    getVisibleCarsForFleet tr none db = .ok (fleetList db) ∧
    (∀ x ∈ fleetList db, ∃ c ∈ db.cars, x.id = c.id ∧ c.available = some true ∧
      c.hidden = some false ∧ x.isFeatured = c.featured) ∧
    (fleetList db).Pairwise
      (fun a b => ¬(a.isFeatured = some false ∧ b.isFeatured = some true)) ∧
    (fleetRows db).Pairwise (fun a b => fleetLe a b = true) :=
  ⟨rfl, fleetList_mem db, fleetList_featured_first db, fleetRows_pairwise db⟩

theorem getVisibleCarsForFleet_spec_witness :
    ∃ c ∈ c8db.cars, c8x.id = c.id ∧ c.available = some true ∧ c.hidden = some false ∧
      c8x.isFeatured = c.featured :=
  (getVisibleCarsForFleet_spec id c8db).2.1 c8x (by decide)

/-! ### Related listing (C9) -/

/-- C9. `getRelatedCars` never includes the reference car in its output,
returns at most `limit` entries, and returns the empty list rather than an
error when the reference car is missing or its category is falsy. -/
theorem getRelatedCars_spec (tr : String → String) (db : DBState) (carId limit : Nat) :
    (∀ l, getRelatedCars tr none none db carId limit = .ok l →
      (∀ x ∈ l, x.id ≠ carId) ∧ l.length ≤ limit) ∧
    (db.cars.find? (fun c => c.id == carId) = none →
      getRelatedCars tr none none db carId limit = .ok []) ∧
    (∀ cur, db.cars.find? (fun c => c.id == carId) = some cur → cur.category = "" →
      getRelatedCars tr none none db carId limit = .ok []) := by
  refine ⟨?_, ?_, ?_⟩
  · intro l hl
    simp only [getRelatedCars] at hl
    cases hf : db.cars.find? (fun c => c.id == carId) with
    | none =>
      rw [hf] at hl
      simp only [Except.ok.injEq] at hl
      subst hl
      exact ⟨by simp, by simp⟩
    | some cur =>
      rw [hf] at hl
      by_cases hc : cur.category = ""
      · simp only [hc, if_true, ite_true, if_pos, Except.ok.injEq] at hl
        subst hl
        exact ⟨by simp, by simp⟩
      · simp only [if_neg hc, Except.ok.injEq] at hl
        subst hl
        constructor
        · intro x hx
          simp only [List.mem_map] at hx
          obtain ⟨r, hr, hxr⟩ := hx
          have hrf : r ∈ db.cars.filter (fun c =>
              c.category == cur.category && c.id != carId && c.available == some true &&
                c.hidden == some false) := List.mem_of_mem_take hr
          have hprop := List.of_mem_filter hrf
          simp only [Bool.and_eq_true, beq_iff_eq, bne_iff_ne, ne_eq] at hprop
          have hxid : x.id = r.id := by rw [← hxr]; rfl
          rw [hxid]
          exact hprop.1.1.2
        · simp only [List.length_map, relatedRows]
          exact List.length_take_le _ _
  · intro hf
    simp only [getRelatedCars, hf]
  · intro cur hf hc
    simp only [getRelatedCars, hf, if_pos hc]

theorem getRelatedCars_spec_witness :
    (∀ x ∈ c9list, x.id ≠ 1) ∧ c9list.length ≤ 2 :=
  (getRelatedCars_spec id c9db 1 2).1 c9list (by decide)

theorem generateSlug_spec_witness : generateSlug "Tesla Model S!!" = "tesla-model-s" :=
  (generateSlug_spec "Tesla Model S!!").2.2.2.2

/-! ### Update (C3, C4): step-preservation lemmas -/

theorem updateBaseStep_cars_none (sched : UpdateSched) (db : DBState) (carId : Nat)
    (u : AppCarUpdate) (h : sched.baseUpdate = none) :
    ((updateBaseStep sched db carId u).1).cars =
      db.cars.map (fun r => if r.id = carId then applyBaseUpdate (buildBaseUpdatePayload u) r
        else r) := by
  unfold updateBaseStep
  by_cases hk : (buildBaseUpdatePayload u).jsKeyCount > 0
  · rw [if_pos hk, h]
  · rw [if_neg hk]
    have hz : (buildBaseUpdatePayload u).jsKeyCount = 0 := by omega
    have hfields : u.name = none ∧ u.category = none ∧ u.description = none ∧
        u.short_description = none ∧ u.available = none ∧ u.featured = none ∧
        u.hidden = none := by
      obtain ⟨n, cat, d, sd, av, fe, hi, pr, im, ft, sp⟩ := u
      simp only [buildBaseUpdatePayload] at hz
      cases n <;> cases cat <;> cases d <;> cases sd <;> cases av <;> cases fe <;>
        cases hi <;> simp_all
    obtain ⟨h1, h2, h3, h4, h5, h6, h7⟩ := hfields
    have happ : ∀ r : CarRow, applyBaseUpdate (buildBaseUpdatePayload u) r = r := by
      intro r
      cases r
      simp [applyBaseUpdate, buildBaseUpdatePayload, h1, h2, h3, h4, h5, h6, h7]
    show db.cars = _
    have : ∀ r ∈ db.cars,
        (if r.id = carId then applyBaseUpdate (buildBaseUpdatePayload u) r else r) = r := by
      intro r _
      rw [happ r]
      exact ite_self r
    rw [List.map_congr_left this, List.map_id']

theorem upsertPricing_cars (db : DBState) (carId : Nat) (p : PricingInsertData) :
    (upsertPricing db carId p).cars = db.cars := by
  unfold upsertPricing
  split <;> rfl

theorem updatePricingStep_cars (sched : UpdateSched) (db : DBState) (carId : Nat)
    (u : AppCarUpdate) : ((updatePricingStep sched db carId u).1).cars = db.cars := by
  unfold updatePricingStep
  cases u.pricing with
  | none => rfl
  | some p =>
    cases sched.pricingUpsert with
    | some m => rfl
    | none => exact upsertPricing_cars db carId p

theorem upsertImageOne_cars (carId : Nat) (db : DBState) (i : ImageInsertData) :
    (upsertImageOne carId db i).cars = db.cars := by
  unfold upsertImageOne
  split <;> rfl

theorem upsertImages_cars (carId : Nat) (l : List ImageInsertData) :
    ∀ db : DBState, (upsertImages carId db l).cars = db.cars := by
  induction l with
  | nil => intro db; rfl
  | cons i rest ih =>
    intro db
    show (List.foldl (upsertImageOne carId) (upsertImageOne carId db i) rest).cars = db.cars
    have h := ih (upsertImageOne carId db i)
    unfold upsertImages at h
    rw [h, upsertImageOne_cars]

theorem imagesUpsertStage_cars (sched : UpdateSched) (db : DBState) (carId : Nat)
    (incoming : List ImageInsertData) (calls : List StoreCall) :
    ((imagesUpsertStage sched db carId incoming calls).1).cars = db.cars := by
  unfold imagesUpsertStage
  split
  · rfl
  · cases sched.imagesUpsert with
    | some m => rfl
    | none => exact upsertImages_cars carId incoming db

theorem imagesStorageStep_cars (sr : Option String) (db : DBState) (paths : List String) :
    ((imagesStorageStep sr db paths).1).cars = db.cars := by
  unfold imagesStorageStep
  split
  · rfl
  · cases sr <;> rfl

theorem updateImagesStep_cars (sched : UpdateSched) (db : DBState) (carId : Nat)
    (incoming : List ImageInsertData) :
    ((updateImagesStep sched db carId incoming).1).cars = db.cars := by
  cases hsf : sched.imagesFetch with
  | some m => simp [updateImagesStep, hsf]
  | none =>
    simp only [updateImagesStep, hsf]
    split
    · exact imagesUpsertStage_cars sched db carId incoming _
    · cases hid : sched.imagesDelete with
      | some m => exact imagesStorageStep_cars _ db _
      | none =>
        rw [imagesUpsertStage_cars]
        exact imagesStorageStep_cars _ db _

theorem updateImagesStepOpt_cars (sched : UpdateSched) (db : DBState) (carId : Nat)
    (o : Option (List ImageInsertData)) :
    ((updateImagesStepOpt sched db carId o).1).cars = db.cars := by
  cases o with
  | none => rfl
  | some incoming => exact updateImagesStep_cars sched db carId incoming

theorem insertFeatureRows_sides (carId : Nat) (l : List FeatureInsertData) :
    ∀ db : DBState, ((insertFeatureRows carId db l).1).cars = db.cars ∧
      ((insertFeatureRows carId db l).1).car_images = db.car_images := by
  induction l with
  | nil => intro db; exact ⟨rfl, rfl⟩
  | cons f rest ih => intro db; simpa [insertFeatureRows] using ih _

theorem insertSpecRows_sides (carId : Nat) (l : List SpecificationInsertData) :
    ∀ db : DBState, ((insertSpecRows carId db l).1).cars = db.cars ∧
      ((insertSpecRows carId db l).1).car_images = db.car_images := by
  induction l with
  | nil => intro db; exact ⟨rfl, rfl⟩
  | cons s rest ih => intro db; simpa [insertSpecRows] using ih _

theorem updateFeaturesStep_sides (sched : UpdateSched) (db : DBState) (carId : Nat)
    (o : Option (List FeatureInsertData)) :
    ((updateFeaturesStep sched db carId o).1).cars = db.cars ∧
      ((updateFeaturesStep sched db carId o).1).car_images = db.car_images := by
  cases o with
  | none => exact ⟨rfl, rfl⟩
  | some fs =>
    cases hd : sched.featuresDelete with
    | some m => simp [updateFeaturesStep, hd]
    | none =>
      simp only [updateFeaturesStep, hd]
      split
      · exact ⟨rfl, rfl⟩
      · cases hi : sched.featuresInsert with
        | some m => exact ⟨rfl, rfl⟩
        | none => simpa using insertFeatureRows_sides carId fs _

theorem updateSpecsStep_sides (sched : UpdateSched) (db : DBState) (carId : Nat)
    (o : Option (List SpecificationInsertData)) :
    ((updateSpecsStep sched db carId o).1).cars = db.cars ∧
      ((updateSpecsStep sched db carId o).1).car_images = db.car_images := by
  cases o with
  | none => exact ⟨rfl, rfl⟩
  | some ss =>
    cases hd : sched.specificationsDelete with
    | some m => simp [updateSpecsStep, hd]
    | none =>
      simp only [updateSpecsStep, hd]
      split
      · exact ⟨rfl, rfl⟩
      · cases hi : sched.specificationsInsert with
        | some m => exact ⟨rfl, rfl⟩
        | none => simpa using insertSpecRows_sides carId ss _

/-- The cars table after `updateCar` is whatever step 1 left: no later step
touches it (and nothing rolls it back). -/
theorem updateCar_cars (tr : String → String) (sched : UpdateSched) (db : DBState)
    (carId : Nat) (u : AppCarUpdate) :
    ((updateCar tr sched db carId u).2.1).cars = ((updateBaseStep sched db carId u).1).cars := by
  unfold updateCar
  cases h1 : updateBaseStep sched db carId u with
  | mk db1 rest1 =>
    obtain ⟨r1, c1⟩ := rest1
    cases r1 with
    | error m => rfl
    | ok v1 =>
      dsimp only
      cases h2 : updatePricingStep sched db1 carId u with
      | mk db2 rest2 =>
        obtain ⟨r2, c2⟩ := rest2
        have e2 : db2.cars = db1.cars := by
          have h := updatePricingStep_cars sched db1 carId u
          rw [h2] at h
          exact h
        cases r2 with
        | error m => exact e2
        | ok v2 =>
          dsimp only
          cases h3 : updateImagesStepOpt sched db2 carId u.images with
          | mk db3 rest3 =>
            obtain ⟨r3, c3⟩ := rest3
            have e3 : db3.cars = db2.cars := by
              have h := updateImagesStepOpt_cars sched db2 carId u.images
              rw [h3] at h
              exact h
            cases r3 with
            | error m => exact e3.trans e2
            | ok v3 =>
              dsimp only
              cases h4 : updateFeaturesStep sched db3 carId u.features with
              | mk db4 rest4 =>
                obtain ⟨r4, c4⟩ := rest4
                have e4 : db4.cars = db3.cars := by
                  have h := (updateFeaturesStep_sides sched db3 carId u.features).1
                  rw [h4] at h
                  exact h
                cases r4 with
                | error m => exact (e4.trans e3).trans e2
                | ok v4 =>
                  dsimp only
                  cases h5 : updateSpecsStep sched db4 carId u.specifications with
                  | mk db5 rest5 =>
                    obtain ⟨r5, c5⟩ := rest5
                    have e5 : db5.cars = db4.cars := by
                      have h := (updateSpecsStep_sides sched db4 carId u.specifications).1
                      rw [h5] at h
                      exact h
                    have e : db5.cars = db1.cars := ((e5.trans e4).trans e3).trans e2
                    cases r5 with
                    | error m => exact e
                    | ok v5 =>
                      dsimp only
                      cases getCarById tr sched.refetch db5 carId with
                      | error m => exact e
                      | ok o =>
                        cases o with
                        | none => exact e
                        | some car => exact e

/-- C3 (corrected). For every `updateCar` call whose base update succeeds, the
stored root record is patched only on fields supplied with a non-null value: a
field omitted from the payload is unchanged, and a field supplied as explicit
null is converted to undefined, dropped from the serialized patch and hence
ALSO left unchanged (not cleared); a field supplied with a value is stored. -/
theorem updateCar_partial_semantics (tr : String → String) (sched : UpdateSched)
    (db : DBState) (carId : Nat) (u : AppCarUpdate) (h : sched.baseUpdate = none) :
    ((updateCar tr sched db carId u).2.1).cars =
      db.cars.map (fun r => if r.id = carId then applyBaseUpdate (buildBaseUpdatePayload u) r
        else r) ∧
    ∀ r : CarRow,
      ((u.description = none ∨ u.description = some none) →
        (applyBaseUpdate (buildBaseUpdatePayload u) r).description = r.description) ∧
      (∀ s, u.description = some (some s) →
        (applyBaseUpdate (buildBaseUpdatePayload u) r).description = some s) ∧
      ((u.short_description = none ∨ u.short_description = some none) →
        (applyBaseUpdate (buildBaseUpdatePayload u) r).short_description =
          r.short_description) ∧
      (∀ s, u.short_description = some (some s) →
        (applyBaseUpdate (buildBaseUpdatePayload u) r).short_description = some s) ∧
      ((u.available = none ∨ u.available = some none) →
        (applyBaseUpdate (buildBaseUpdatePayload u) r).available = r.available) ∧
      (∀ b, u.available = some (some b) →
        (applyBaseUpdate (buildBaseUpdatePayload u) r).available = some b) ∧
      ((u.featured = none ∨ u.featured = some none) →
        (applyBaseUpdate (buildBaseUpdatePayload u) r).featured = r.featured) ∧
      (∀ b, u.featured = some (some b) →
        (applyBaseUpdate (buildBaseUpdatePayload u) r).featured = some b) ∧
      ((u.hidden = none ∨ u.hidden = some none) →
        (applyBaseUpdate (buildBaseUpdatePayload u) r).hidden = r.hidden) ∧
      (∀ b, u.hidden = some (some b) →
        (applyBaseUpdate (buildBaseUpdatePayload u) r).hidden = some b) ∧
      (u.name = none → (applyBaseUpdate (buildBaseUpdatePayload u) r).name = r.name ∧
        (applyBaseUpdate (buildBaseUpdatePayload u) r).slug = r.slug) ∧
      (u.category = none →
        (applyBaseUpdate (buildBaseUpdatePayload u) r).category = r.category) := by
  constructor
  · rw [updateCar_cars, updateBaseStep_cars_none sched db carId u h]
  · intro r
    refine ⟨?_, ?_, ?_, ?_, ?_, ?_, ?_, ?_, ?_, ?_, ?_, ?_⟩
    · intro hd
      rcases hd with hd | hd <;> simp [applyBaseUpdate, buildBaseUpdatePayload, hd]
    · intro s hd; simp [applyBaseUpdate, buildBaseUpdatePayload, hd]
    · intro hd
      rcases hd with hd | hd <;> simp [applyBaseUpdate, buildBaseUpdatePayload, hd]
    · intro s hd; simp [applyBaseUpdate, buildBaseUpdatePayload, hd]
    · intro hd
      rcases hd with hd | hd <;> simp [applyBaseUpdate, buildBaseUpdatePayload, hd]
    · intro b hd; simp [applyBaseUpdate, buildBaseUpdatePayload, hd]
    · intro hd
      rcases hd with hd | hd <;> simp [applyBaseUpdate, buildBaseUpdatePayload, hd]
    · intro b hd; simp [applyBaseUpdate, buildBaseUpdatePayload, hd]
    · intro hd
      rcases hd with hd | hd <;> simp [applyBaseUpdate, buildBaseUpdatePayload, hd]
    · intro b hd; simp [applyBaseUpdate, buildBaseUpdatePayload, hd]
    · intro hd; constructor <;> simp [applyBaseUpdate, buildBaseUpdatePayload, hd]
    · intro hd; simp [applyBaseUpdate, buildBaseUpdatePayload, hd]

theorem updateCar_partial_semantics_witness :
    ((updateCar id schedOkU c3db 1 c3u).2.1).cars =
      c3db.cars.map (fun r => if r.id = 1 then applyBaseUpdate (buildBaseUpdatePayload c3u) r
        else r) :=
  (updateCar_partial_semantics id schedOkU c3db 1 c3u rfl).1

/-- C3 counterexample. An update whose payload carries an explicit null
`description` leaves the stored description `"hello"` — it neither becomes
null nor empty, so the claim that explicit null clears the field fails. -/
theorem updateCar_null_description_not_cleared :
    ((updateCar id schedOkU c3db 1 c3u).2.1).cars.map (fun r => r.description) =
      [some "hello"] ∧
    (some "hello" : Option String) ≠ none ∧ (some "hello" : Option String) ≠ some "" := by
  refine ⟨?_, by decide, by decide⟩
  decide

theorem upsertPricing_images (db : DBState) (carId : Nat) (p : PricingInsertData) :
    (upsertPricing db carId p).car_images = db.car_images := by
  unfold upsertPricing
  split <;> rfl

theorem updateBaseStep_images (sched : UpdateSched) (db : DBState) (carId : Nat)
    (u : AppCarUpdate) : ((updateBaseStep sched db carId u).1).car_images = db.car_images := by
  simp only [updateBaseStep]
  by_cases hk : (buildBaseUpdatePayload u).jsKeyCount > 0
  · rw [if_pos hk]
    cases sched.baseUpdate <;> rfl
  · rw [if_neg hk]

theorem updateBaseStep_ok (sched : UpdateSched) (db : DBState) (carId : Nat)
    (u : AppCarUpdate) (h : sched.baseUpdate = none) :
    ((updateBaseStep sched db carId u).2.1) = Except.ok () := by
  simp only [updateBaseStep]
  by_cases hk : (buildBaseUpdatePayload u).jsKeyCount > 0
  · rw [if_pos hk, h]
  · rw [if_neg hk]

theorem updatePricingStep_ok (sched : UpdateSched) (db : DBState) (carId : Nat)
    (u : AppCarUpdate) (h : sched.pricingUpsert = none) :
    ((updatePricingStep sched db carId u).2.1) = Except.ok () := by
  unfold updatePricingStep
  cases u.pricing with
  | none => rfl
  | some p => rw [h]

theorem updatePricingStep_images (sched : UpdateSched) (db : DBState) (carId : Nat)
    (u : AppCarUpdate) : ((updatePricingStep sched db carId u).1).car_images = db.car_images := by
  unfold updatePricingStep
  cases u.pricing with
  | none => rfl
  | some p =>
    cases sched.pricingUpsert with
    | some m => rfl
    | none => exact upsertPricing_images db carId p

theorem imagesStorageStep_images (sr : Option String) (db : DBState) (paths : List String) :
    ((imagesStorageStep sr db paths).1).car_images = db.car_images := by
  unfold imagesStorageStep
  split
  · rfl
  · cases sr <;> rfl

theorem imagesStorageStep_calls (sr : Option String) (db : DBState) (paths : List String)
    (h : ¬ paths.isEmpty = true) :
    ((imagesStorageStep sr db paths).2) = [StoreCall.storageRemove paths] := by
  unfold imagesStorageStep
  rw [if_neg h]
  cases sr <;> rfl

theorem imagesUpsertStage_nil (sched : UpdateSched) (db : DBState) (carId : Nat)
    (calls : List StoreCall) :
    imagesUpsertStage sched db carId [] calls = (db, Except.ok (), calls) := rfl

theorem imagesToDelete_nil_eq (db2 : DBState) (carId : Nat) :
    ((db2.car_images.filter (fun r => r.car_id == carId)).filter
      (fun r => r.path != "" &&
        !((List.map (fun i => i.path) ([] : List ImageInsertData)).contains r.path))) =
    db2.car_images.filter (fun r => r.car_id == carId && r.path != "") := by
  rw [List.filter_filter]
  apply List.filter_congr
  intro a _
  cases h1 : (a.car_id == carId) <;> cases h2 : (a.path != "") <;> simp [h1, h2]

theorem deletable_ids_contains (db2 : DBState) (carId : Nat)
    (hnodup : (db2.car_images.map (fun r => r.id)).Nodup)
    (r : ImageRow) (hr : r ∈ db2.car_images) :
    (((db2.car_images.filter (fun x => x.car_id == carId && x.path != "")).map
        (fun x => x.id)).contains r.id) = (r.car_id == carId && r.path != "") := by
  rw [Bool.eq_iff_iff]
  constructor
  · intro hc
    have hmem : r.id ∈ (db2.car_images.filter
        (fun x => x.car_id == carId && x.path != "")).map (fun x => x.id) :=
      List.elem_iff.1 hc
    obtain ⟨r2, hr2, hid⟩ := List.mem_map.1 hmem
    have hr2mem := List.mem_of_mem_filter hr2
    have hr2prop := List.of_mem_filter hr2
    have heq : r2 = r :=
      List.inj_on_of_nodup_map hnodup hr2mem hr hid
    rw [← heq]
    exact hr2prop
  · intro hp
    apply List.elem_iff.2
    exact List.mem_map.2 ⟨r, List.mem_filter.2 ⟨hr, hp⟩, rfl⟩

/-- Step 3 of `updateCar` on the empty incoming list: exactly the car's image
rows with a truthy path are deleted (rows with a falsy path survive), the step
succeeds, and when there was anything to delete the storage removal was
attempted on precisely the deletable paths — independently of the storage
outcome. -/
theorem updateImagesStep_nil (sched : UpdateSched) (db2 : DBState) (carId : Nat)
    (hf : sched.imagesFetch = none) (hd : sched.imagesDelete = none)
    (hnodup : (db2.car_images.map (fun r => r.id)).Nodup) :
    ((updateImagesStep sched db2 carId []).1).car_images =
      db2.car_images.filter (fun r => !(r.car_id == carId && r.path != "")) ∧
    ((updateImagesStep sched db2 carId []).2.1) = Except.ok () ∧
    (deletablePaths db2 carId ≠ [] →
      StoreCall.storageRemove (deletablePaths db2 carId) ∈
        (updateImagesStep sched db2 carId []).2.2) := by
  simp only [updateImagesStep, hf, imagesToDelete_nil_eq]
  by_cases he : (db2.car_images.filter
      (fun r => r.car_id == carId && r.path != "")).isEmpty = true
  · simp only [if_pos he, imagesUpsertStage_nil]
    have hnil : db2.car_images.filter (fun r => r.car_id == carId && r.path != "") = [] :=
      List.isEmpty_iff.1 he
    have hall := List.filter_eq_nil_iff.1 hnil
    refine ⟨?_, trivial, ?_⟩
    · symm
      apply List.filter_eq_self.2
      intro a ha
      have := hall a ha
      simp only [Bool.not_eq_true] at this ⊢
      simp [this]
    · intro hne
      exact absurd (by simp [deletablePaths, hnil]) hne
  · simp only [if_neg he, hd, imagesUpsertStage_nil]
    have hpathsfull : ((db2.car_images.filter
        (fun r => r.car_id == carId && r.path != "")).map (fun r => r.path)).filter
          (fun p => p != "") = deletablePaths db2 carId := by
      unfold deletablePaths
      apply List.filter_eq_self.2
      intro p hp
      obtain ⟨r2, hr2, hpr⟩ := List.mem_map.1 hp
      have hr2prop := List.of_mem_filter hr2
      simp only [Bool.and_eq_true] at hr2prop
      rw [← hpr]
      exact hr2prop.2
    rw [hpathsfull]
    have himg : ((imagesStorageStep sched.storageRemove db2
        (deletablePaths db2 carId)).1).car_images = db2.car_images :=
      imagesStorageStep_images _ _ _
    refine ⟨?_, trivial, ?_⟩
    · rw [himg]
      apply List.filter_congr
      intro r hr
      rw [deletable_ids_contains db2 carId hnodup r hr]
    · intro hne
      have hcalls := imagesStorageStep_calls sched.storageRemove db2
        (deletablePaths db2 carId) (by simpa [List.isEmpty_iff] using hne)
      rw [hcalls]
      simp

/-- C4 (corrected). An `updateCar` whose `images` patch is the empty list
(base update, pricing step, image fetch and image row delete succeeding, image
row ids distinct) removes from the database exactly the car's image rows whose
stored path is truthy — a row with an empty/falsy path is NOT removed, against
the claim's "every existing image row" — attempts storage removal for each
such path, and a storage-removal failure does not block the row removal (the
storage outcome and all later steps are unconstrained). -/
theorem updateCar_empty_images_semantics (tr : String → String) (sched : UpdateSched)
    (db : DBState) (carId : Nat) (u : AppCarUpdate)
    (hb : sched.baseUpdate = none) (hp : sched.pricingUpsert = none)
    (hf : sched.imagesFetch = none) (hd : sched.imagesDelete = none)
    (himg : u.images = some [])
    (hnodup : (db.car_images.map (fun r => r.id)).Nodup) :
    ((updateCar tr sched db carId u).2.1).car_images =
      db.car_images.filter (fun r => !(r.car_id == carId && r.path != "")) ∧
    (deletablePaths db carId ≠ [] →
      StoreCall.storageRemove (deletablePaths db carId) ∈
        (updateCar tr sched db carId u).2.2) := by
  unfold updateCar
  cases h1 : updateBaseStep sched db carId u with
  | mk db1 rest1 =>
    obtain ⟨r1, c1⟩ := rest1
    have hok1 := updateBaseStep_ok sched db carId u hb
    rw [h1] at hok1
    have hi1 := updateBaseStep_images sched db carId u
    rw [h1] at hi1
    simp only at hok1 hi1
    subst hok1
    dsimp only
    cases h2 : updatePricingStep sched db1 carId u with
    | mk db2 rest2 =>
      obtain ⟨r2, c2⟩ := rest2
      have hok2 := updatePricingStep_ok sched db1 carId u hp
      rw [h2] at hok2
      have hi2 := updatePricingStep_images sched db1 carId u
      rw [h2] at hi2
      simp only at hok2 hi2
      subst hok2
      dsimp only
      have hi12 : db2.car_images = db.car_images := hi2.trans hi1
      have hdel12 : deletablePaths db2 carId = deletablePaths db carId := by
        simp [deletablePaths, hi12]
      rw [himg]
      simp only [updateImagesStepOpt]
      have hstep := updateImagesStep_nil sched db2 carId hf hd (by rw [hi12]; exact hnodup)
      cases h3 : updateImagesStep sched db2 carId [] with
      | mk db3 rest3 =>
        obtain ⟨r3, c3⟩ := rest3
        rw [h3] at hstep
        simp only at hstep
        obtain ⟨hs1, hs2, hs3⟩ := hstep
        rw [hi12] at hs1
        rw [hdel12] at hs3
        subst hs2
        dsimp only
        cases h4 : updateFeaturesStep sched db3 carId u.features with
        | mk db4 rest4 =>
          obtain ⟨r4, c4⟩ := rest4
          have hi4 := (updateFeaturesStep_sides sched db3 carId u.features).2
          rw [h4] at hi4
          simp only at hi4
          cases r4 with
          | error m =>
            refine ⟨hi4.trans hs1, ?_⟩
            intro hne
            have hm := hs3 hne
            simp only [List.mem_append]
            tauto
          | ok v4 =>
            dsimp only
            cases h5 : updateSpecsStep sched db4 carId u.specifications with
            | mk db5 rest5 =>
              obtain ⟨r5, c5⟩ := rest5
              have hi5 := (updateSpecsStep_sides sched db4 carId u.specifications).2
              rw [h5] at hi5
              simp only at hi5
              have hi45 : db5.car_images =
                  db.car_images.filter (fun r => !(r.car_id == carId && r.path != "")) :=
                (hi5.trans hi4).trans hs1
              cases r5 with
              | error m =>
                refine ⟨hi45, ?_⟩
                intro hne
                have hm := hs3 hne
                simp only [List.mem_append]
                tauto
              | ok v5 =>
                dsimp only
                cases getCarById tr sched.refetch db5 carId with
                | error m =>
                  refine ⟨hi45, ?_⟩
                  intro hne
                  have hm := hs3 hne
                  simp only [List.mem_append]
                  tauto
                | ok o =>
                  cases o with
                  | none =>
                    refine ⟨hi45, ?_⟩
                    intro hne
                    have hm := hs3 hne
                    simp only [List.mem_append]
                    tauto
                  | some car =>
                    refine ⟨hi45, ?_⟩
                    intro hne
                    have hm := hs3 hne
                    simp only [List.mem_append]
                    tauto

/-- C4 counterexample. On a car whose only image row has an empty (falsy)
path, an update whose images patch is the empty list leaves that row in the
database — so "every existing image row for that car is removed" fails as
stated. -/
theorem updateCar_empty_images_keeps_falsy_path_row :
    ((updateCar id schedOkU c4db 1 c4u).2.1).car_images = [c4img] ∧ c4img.car_id = 1 := by
  refine ⟨?_, rfl⟩
  decide

theorem updateCar_empty_images_semantics_witness :
    ((updateCar id c4schedW c4db2 1 c4u).2.1).car_images =
      c4db2.car_images.filter (fun r => !(r.car_id == 1 && r.path != "")) ∧
    (deletablePaths c4db2 1 ≠ [] →
      StoreCall.storageRemove (deletablePaths c4db2 1) ∈
        (updateCar id c4schedW c4db2 1 c4u).2.2) :=
  updateCar_empty_images_semantics id c4schedW c4db2 1 c4u rfl rfl rfl rfl rfl (by decide)

end ExoDrive
